import Mathlib

/-!
# KairosServer — verification of the command-pipeline specification

Shallow embedding of the KairosServer graphics server (C++ sources under
`shared/` and `KairosServer/`) together with proofs about the wire codec,
header validation, the priority command queue, priority assignment, the
layer registry, the batch-merge pass, per-session rate limiting and the
client disconnect path.

Machine integers are modelled as `Nat` with explicit bounds or `% 2^w`
where overflow matters; `float` fields that only ever get compared are
modelled as `ℚ`; time points are `Nat` microseconds.  Mutexes and threads
are not modelled: all operations are sequential state transformers.
-/

namespace Kairos

/-! ## Wire protocol data model (shared/include/Protocol.hpp)

`MessageHeader` is the packed 32-byte header.  The `type` field is a
`uint8_t` on the wire (the C++ `MessageType` enum); it is modelled as the
raw byte value. -/

/-- `PROTOCOL_VERSION` from shared/include/Constants.hpp. -/
def PROTOCOL_VERSION : Nat := 1

/-- `Limits::MAX_MESSAGE_SIZE` (10 MiB) from shared/include/Constants.hpp;
also the default `Client::Config::max_message_size`. -/
def MAX_MESSAGE_SIZE : Nat := 10 * 1024 * 1024

/-- The packed message header (shared/include/Protocol.hpp, struct
`MessageHeader`).  Field widths on the wire: 4,4,1,1,2,4,4,4,8 bytes. -/
structure MessageHeader where
  magic : Nat
  protocol_version : Nat
  msg_type : Nat
  layer_id : Nat
  reserved : Nat
  client_id : Nat
  sequence : Nat
  data_size : Nat
  timestamp : Nat

/-- The `MessageType` enumerator values (shared/include/Protocol.hpp), in
declaration order. -/
def MESSAGE_TYPES : List Nat :=
  [0x01, 0x02,
   0x10, 0x11, 0x12, 0x13, 0x14, 0x15, 0x16, 0x17, 0x18, 0x19, 0x1A,
   0x20, 0x21, 0x22, 0x23, 0x24, 0x25, 0x26, 0x27,
   0x30, 0x31, 0x32,
   0x40, 0x41, 0x42, 0x43, 0x44,
   0x50, 0x51,
   0xF0, 0xF1, 0xFE, 0xFF]

/-- Whether a type byte is one of the `MessageType` enumerator values. -/
def knownTag (t : Nat) : Bool :=
  MESSAGE_TYPES.any fun c => t = c

/-- `ProtocolHelper::validateHeader` (shared/src/Protocol.cpp).  The
message-type check compares the `uint8_t` type byte against
`MessageType::DISCONNECT = 0xFF`; the byte itself is at most `0xFF`, so
that comparison never fires for any value the field can hold. -/
def validateHeader (h : MessageHeader) : Bool :=
  if h.magic ≠ 0x4B41524F then false
  else if h.protocol_version ≠ PROTOCOL_VERSION then false
  else if h.msg_type > 0xFF then false
  else if h.data_size > 10 * 1024 * 1024 then false
  else true

/-! ## Priority assignment (KairosServer/src/Core/CommandProcessor.cpp) -/

/-- `RenderCommand::Priority` (KairosServer/include/Graphics/RenderCommand.hpp). -/
inductive Priority where
  | LOW
  | NORMAL
  | HIGH
  | CRITICAL
deriving DecidableEq

/-- The numeric value of a priority (`LOW = 0 … CRITICAL = 3`). -/
def Priority.rank : Priority → Nat
  | .LOW => 0
  | .NORMAL => 1
  | .HIGH => 2
  | .CRITICAL => 3

/-- `CommandConverter::assignPriority` (CommandProcessor.cpp).  Message
types are the wire byte values (`CLEAR_LAYER = 0x40`,
`CLEAR_ALL_LAYERS = 0x41`, `DRAW_TEXT = 0x18`,
`DRAW_TEXTURED_QUADS = 0x1A`). -/
def assignPriority (message_type : Nat) (layer_id : Nat) : Priority :=
  if layer_id = 0 then .HIGH
  else if message_type = 0x40 then .HIGH
  else if message_type = 0x41 then .HIGH
  else if message_type = 0x18 then .NORMAL
  else if message_type = 0x1A then .NORMAL
  else .NORMAL

/-! ## Priority command queue (spec §3/§4.4; declared in
KairosServer/include/Graphics/RenderCommand.hpp as `RenderCommandQueue`,
drained by `CommandProcessor::processingLoop`) -/

/-- A queued render command: its priority plus an identity standing for
the rest of the `RenderCommand` payload. -/
structure QCmd where
  priority : Priority
  seq : Nat
deriving DecidableEq

/-- Remove the first element satisfying `p`, keeping the rest in order. -/
def extractFirst {α : Type} (p : α → Bool) : List α → Option (α × List α)
  | [] => none
  | c :: rest =>
    if p c then some (c, rest)
    else
      match extractFirst p rest with
      | none => none
      | some (x, r) => some (x, c :: r)

/-- Does a queued command belong to the given priority class? -/
def isPrio (p : Priority) (c : QCmd) : Bool := c.priority = p

/-- Modelled from the spec: the implementation of
`RenderCommandQueue::enqueue` is not in the source tree (only its
declaration in RenderCommand.hpp and its callers are).  Spec §4.4:
"`enqueue(cmd)` returns ok or dropped"; §3: the queue is a bounded
ring, producers may drop when full.  The queue content is kept in
insertion order. -/
def rcqEnqueue (max_size : Nat) (q : List QCmd) (c : QCmd) : List QCmd × Bool :=
  if q.length ≥ max_size then (q, false) else (q ++ [c], true)

/-- Modelled from the spec: the implementation of
`RenderCommandQueue::dequeue` is not in the source tree.  Spec §3: "the
consumer drains in priority-then-FIFO order (Critical > High > Normal >
Low, ties by insertion order)" — so a dequeue removes the
earliest-enqueued command of the highest priority class present. -/
def rcqDequeue (q : List QCmd) : Option (QCmd × List QCmd) :=
  match extractFirst (isPrio .CRITICAL) q with
  | some r => some r
  | none =>
    match extractFirst (isPrio .HIGH) q with
    | some r => some r
    | none =>
      match extractFirst (isPrio .NORMAL) q with
      | some r => some r
      | none => extractFirst (isPrio .LOW) q

/-- Repeated dequeuing until the queue is empty (each dequeue removes one
command, so `q.length` rounds suffice); this is the order in which the
single consumer (`CommandProcessor::processingLoop` via `dequeueBatch`)
sees the commands. -/
def drainGo : Nat → List QCmd → List QCmd
  | 0, _ => []
  | fuel + 1, q =>
    match rcqDequeue q with
    | none => []
    | some (c, q') => c :: drainGo fuel q'

/-- The full dequeue order of a queue state. -/
def drainQueue (q : List QCmd) : List QCmd := drainGo q.length q

/-! ## Client state machine (KairosServer/src/Network/Client.cpp) -/

/-- `Client::State` (KairosServer/include/Network/Client.hpp). -/
inductive ClientState where
  | CONNECTING
  | HANDSHAKE
  | CONNECTED
  | DISCONNECTING
  | DISCONNECTED
  | ERROR
deriving DecidableEq

/-- The slice of `Client` state that `Client::disconnect` touches:
`m_state`, `m_socket` and `m_disconnect_reason`. -/
structure ClientConn where
  state : ClientState
  socket : Int
  disconnect_reason : String

/-! ## Rate limiting (Client.cpp, `Client::checkRateLimit`) -/

/-- `Client::MAX_MESSAGES_PER_SECOND` (Client.hpp). -/
def MAX_MESSAGES_PER_SECOND : Nat := 1000

/-- One second in microseconds (`std::chrono::seconds(1)`); time points
are modelled as `Nat` microseconds, and `now - t` is the truncated
subtraction a non-positive `chrono` duration also fails the `>` test. -/
def ONE_SECOND_US : Nat := 1000000

/-- The state `checkRateLimit` touches: the sliding window
`m_message_times` (front of the queue first) and the error counter
`m_info.errors`. -/
structure RateLimitState where
  message_times : List Nat
  errors : Nat

/-- The `while` loop in `checkRateLimit`: pop timestamps older than one
second off the front of the window. -/
def pruneOld (now : Nat) : List Nat → List Nat
  | [] => []
  | t :: rest => if now - t > ONE_SECOND_US then pruneOld now rest else t :: rest

/-- `Client::checkRateLimit` (Client.cpp): prune the window, then either
reject (window full: bump `errors`, return `false`) or admit (push `now`,
return `true`). -/
def checkRateLimit (now : Nat) (st : RateLimitState) : RateLimitState × Bool :=
  let times := pruneOld now st.message_times
  if times.length ≥ MAX_MESSAGES_PER_SECOND then
    ({ st with message_times := times, errors := st.errors + 1 }, false)
  else
    ({ st with message_times := times ++ [now] }, true)

/-- A sequence of `checkRateLimit` calls at the given arrival times,
collecting each call's boolean result. -/
def runRateLimit : List Nat → RateLimitState → RateLimitState × List Bool
  | [], st => (st, [])
  | t :: rest, st =>
    let r := checkRateLimit t st
    let r' := runRateLimit rest r.1
    (r'.1, r.2 :: r'.2)

/-- `Client::disconnect(reason)` (Client.cpp): returns immediately when the
state is already `DISCONNECTED`; otherwise records the reason, moves to
`DISCONNECTING`, closes the socket if open, and moves to `DISCONNECTED`. -/
def disconnect (reason : String) (c : ClientConn) : ClientConn :=
  if c.state = .DISCONNECTED then c
  else
    let c1 : ClientConn :=
      { c with disconnect_reason := reason, state := .DISCONNECTING }
    let c2 : ClientConn :=
      if c1.socket ≠ -1 then { c1 with socket := -1 } else c1
    { c2 with state := .DISCONNECTED }

/-! ## Layer registry (KairosServer/src/Core/LayerManager.cpp)

`m_layers` is a `std::unordered_map<uint8_t, std::unique_ptr<Layer>>`; it
is modelled as an association list in the map's (unspecified) iteration
order.  `float` fields (`z_order`, `opacity`) are modelled as `ℚ`.  The
class declaration of `LayerManager` is not in the source tree; the field
set below is reconstructed from the fields LayerManager.cpp reads and
writes (`last_modified` at creation is taken to be the creation time). -/

/-- A layer's metadata (fields used by LayerManager.cpp).  The render
texture is reduced to its GPU id (`0` = none, as in the source's
`render_texture.id != 0` tests). -/
structure Layer where
  id : Nat
  visible : Bool
  z_order : ℚ
  blend_mode : Nat
  opacity : ℚ
  dirty : Bool
  object_count : Nat
  vertex_count : Nat
  caching_enabled : Bool
  render_texture_id : Nat
  created_time : Nat
  last_modified : Nat

/-- The registry state: `m_max_layers`, `m_layers`, `m_needs_sort`. -/
structure LayerManagerState where
  max_layers : Nat
  layers : List (Nat × Layer)
  needs_sort : Bool

/-- `m_layers.find(layer_id) != m_layers.end()`. -/
def containsLayer (lm : LayerManagerState) (layer_id : Nat) : Bool :=
  lm.layers.any (fun p => p.1 = layer_id)

/-- The layer constructed by `LayerManager::createLayer`: visible, z-order
equal to the id, `ALPHA` blend (0), opacity 1, dirty. -/
def defaultLayer (layer_id now : Nat) : Layer :=
  { id := layer_id, visible := true, z_order := (layer_id : ℚ), blend_mode := 0,
    opacity := 1, dirty := true, object_count := 0, vertex_count := 0,
    caching_enabled := false, render_texture_id := 0,
    created_time := now, last_modified := now }

/-- `LayerManager::createLayer`: fails above `m_max_layers`, succeeds
without change if the layer exists, otherwise inserts a fresh layer. -/
def createLayer (lm : LayerManagerState) (layer_id now : Nat) :
    LayerManagerState × Bool :=
  if layer_id ≥ lm.max_layers then (lm, false)
  else if containsLayer lm layer_id then (lm, true)
  else ({ lm with layers := lm.layers ++ [(layer_id, defaultLayer layer_id now)] }, true)

/-- `LayerManager::deleteLayer`: refuses layer 0, fails on a missing
layer, otherwise erases the entry. -/
def deleteLayer (lm : LayerManagerState) (layer_id : Nat) :
    LayerManagerState × Bool :=
  if layer_id = 0 then (lm, false)
  else if ¬ containsLayer lm layer_id then (lm, false)
  else ({ lm with layers := lm.layers.eraseP (fun p => p.1 = layer_id) }, true)

/-- Update the stored layer with the given id in place. -/
def modifyLayer (lm : LayerManagerState) (layer_id : Nat) (f : Layer → Layer) :
    LayerManagerState :=
  { lm with layers := lm.layers.map (fun p => if p.1 = layer_id then (p.1, f p.2) else p) }

/-- `LayerManager::setLayerVisibility`. -/
def setLayerVisibility (lm : LayerManagerState) (layer_id : Nat) (visible : Bool) :
    LayerManagerState × Bool :=
  if ¬ containsLayer lm layer_id then (lm, false)
  else
    (modifyLayer lm layer_id fun l =>
      if l.visible ≠ visible then { l with visible := visible, dirty := true } else l,
      true)

/-- `LayerManager::setLayerOpacity` (`std::clamp` to `[0,1]`, change
detected with the `0.001` tolerance). -/
def setLayerOpacity (lm : LayerManagerState) (layer_id : Nat) (opacity : ℚ) :
    LayerManagerState × Bool :=
  if ¬ containsLayer lm layer_id then (lm, false)
  else
    let op := max 0 (min 1 opacity)
    (modifyLayer lm layer_id fun l =>
      if |l.opacity - op| > 1 / 1000 then { l with opacity := op, dirty := true } else l,
      true)

/-- `LayerManager::setLayerBlendMode`. -/
def setLayerBlendMode (lm : LayerManagerState) (layer_id bm : Nat) :
    LayerManagerState × Bool :=
  if ¬ containsLayer lm layer_id then (lm, false)
  else
    (modifyLayer lm layer_id fun l =>
      if l.blend_mode ≠ bm then { l with blend_mode := bm, dirty := true } else l,
      true)

/-- `LayerManager::setLayerZOrder`: on an effective change (beyond the
`0.001` tolerance) updates the z-order and requests a sort. -/
def setLayerZOrder (lm : LayerManagerState) (layer_id : Nat) (z : ℚ) :
    LayerManagerState × Bool :=
  match lm.layers.find? (fun p => p.1 = layer_id) with
  | none => (lm, false)
  | some pl =>
    if |pl.2.z_order - z| > 1 / 1000 then
      ({ modifyLayer lm layer_id (fun l => { l with z_order := z }) with
          needs_sort := true }, true)
    else (lm, true)

/-- `LayerManager::clearLayer`: zero the counters, mark dirty, touch
`last_modified` (the render-texture clear has no registry effect). -/
def clearLayer (lm : LayerManagerState) (layer_id now : Nat) :
    LayerManagerState × Bool :=
  if ¬ containsLayer lm layer_id then (lm, false)
  else
    (modifyLayer lm layer_id fun l =>
      { l with object_count := 0, vertex_count := 0, dirty := true,
               last_modified := now }, true)

/-- `LayerManager::clearAllLayers`. -/
def clearAllLayers (lm : LayerManagerState) (now : Nat) : LayerManagerState :=
  { lm with layers := lm.layers.map fun p =>
      (p.1, { p.2 with object_count := 0, vertex_count := 0, dirty := true,
                       last_modified := now }) }

/-- `LayerManager::markLayerDirty`. -/
def markLayerDirty (lm : LayerManagerState) (layer_id now : Nat) : LayerManagerState :=
  modifyLayer lm layer_id fun l => { l with dirty := true, last_modified := now }

/-- `LayerManager::markLayerClean`. -/
def markLayerClean (lm : LayerManagerState) (layer_id : Nat) : LayerManagerState :=
  modifyLayer lm layer_id fun l => { l with dirty := false }

/-- `LayerManager::updateLayerStats`. -/
def updateLayerStats (lm : LayerManagerState) (layer_id oc vc now : Nat) :
    LayerManagerState :=
  modifyLayer lm layer_id fun l =>
    { l with object_count := oc, vertex_count := vc, last_modified := now }

/-- `LayerManager::enableLayerCaching`: replace the render texture with a
freshly loaded one (`new_texture_id`, `0` meaning `LoadRenderTexture`
failed); only on success flip `caching_enabled` and mark dirty. -/
def enableLayerCaching (lm : LayerManagerState) (layer_id new_texture_id : Nat) :
    LayerManagerState × Bool :=
  if ¬ containsLayer lm layer_id then (lm, false)
  else
    let lm1 := modifyLayer lm layer_id fun l =>
      { l with render_texture_id := new_texture_id }
    if new_texture_id = 0 then (lm1, false)
    else
      (modifyLayer lm1 layer_id fun l =>
        { l with caching_enabled := true, dirty := true }, true)

/-- `LayerManager::disableLayerCaching`. -/
def disableLayerCaching (lm : LayerManagerState) (layer_id : Nat) :
    LayerManagerState × Bool :=
  if ¬ containsLayer lm layer_id then (lm, false)
  else
    (modifyLayer lm layer_id fun l =>
      { l with render_texture_id := 0, caching_enabled := false }, true)

/-- `duration_cast<minutes>` on microsecond time points. -/
def minutesIdle (now last : Nat) : Nat := (now - last) / 60000000

/-- `LayerManager::optimizeLayers`: never touches layer 0; drops caches of
empty layers idle for more than 2 minutes; removes empty non-zero layers
idle for more than 5 minutes. -/
def optimizeLayers (lm : LayerManagerState) (now : Nat) : LayerManagerState :=
  let lm1 : LayerManagerState :=
    { lm with layers := lm.layers.map fun p =>
        if p.1 ≠ 0 ∧ p.2.caching_enabled ∧ p.2.object_count = 0 ∧
            minutesIdle now p.2.last_modified > 2 then
          (p.1, { p.2 with render_texture_id := 0, caching_enabled := false })
        else p }
  { lm1 with layers := lm1.layers.filter fun p =>
      ¬ (p.1 ≠ 0 ∧ p.2.object_count = 0 ∧ minutesIdle now p.2.last_modified > 5) }

/-- `LayerManager::clear`: drop every layer, then recreate layer 0. -/
def lmClear (lm : LayerManagerState) (now : Nat) : LayerManagerState :=
  (createLayer { lm with layers := [] } 0 now).1

/-- `LayerManager::getOrCreateLayer` (registry effect). -/
def getOrCreateLayer (lm : LayerManagerState) (layer_id now : Nat) : LayerManagerState :=
  if containsLayer lm layer_id then lm else (createLayer lm layer_id now).1

/-- The `LayerManager(max_layers)` constructor: empty registry plus
`createLayer(0)`. -/
def initLayerManager (max_layers now : Nat) : LayerManagerState :=
  (createLayer ⟨max_layers, [], false⟩ 0 now).1

/-- One registry operation (every state-mutating public member of
`LayerManager`); time-dependent operations carry their `now`, and
`enableCache` carries the id of the texture the GPU returned. -/
inductive LMOp where
  | create (layer_id now : Nat)
  | getOrCreate (layer_id now : Nat)
  | delete (layer_id : Nat)
  | setVisibility (layer_id : Nat) (visible : Bool)
  | setOpacity (layer_id : Nat) (opacity : ℚ)
  | setBlendMode (layer_id bm : Nat)
  | setZOrder (layer_id : Nat) (z : ℚ)
  | clearOne (layer_id now : Nat)
  | clearAll (now : Nat)
  | markDirty (layer_id now : Nat)
  | markClean (layer_id : Nat)
  | updateStats (layer_id oc vc now : Nat)
  | enableCache (layer_id tex : Nat)
  | disableCache (layer_id : Nat)
  | optimize (now : Nat)
  | reset (now : Nat)

/-- Apply one registry operation (discarding the success flag). -/
def applyOp (op : LMOp) (lm : LayerManagerState) : LayerManagerState :=
  match op with
  | .create layer_id now => (createLayer lm layer_id now).1
  | .getOrCreate layer_id now => getOrCreateLayer lm layer_id now
  | .delete layer_id => (deleteLayer lm layer_id).1
  | .setVisibility layer_id v => (setLayerVisibility lm layer_id v).1
  | .setOpacity layer_id o => (setLayerOpacity lm layer_id o).1
  | .setBlendMode layer_id bm => (setLayerBlendMode lm layer_id bm).1
  | .setZOrder layer_id z => (setLayerZOrder lm layer_id z).1
  | .clearOne layer_id now => (clearLayer lm layer_id now).1
  | .clearAll now => clearAllLayers lm now
  | .markDirty layer_id now => markLayerDirty lm layer_id now
  | .markClean layer_id => markLayerClean lm layer_id
  | .updateStats layer_id oc vc now => updateLayerStats lm layer_id oc vc now
  | .enableCache layer_id tex => (enableLayerCaching lm layer_id tex).1
  | .disableCache layer_id => (disableLayerCaching lm layer_id).1
  | .optimize now => optimizeLayers lm now
  | .reset now => lmClear lm now

/-! ### Render order (C8) -/

/-- Stable insertion of a layer entry into a list sorted by ascending
z-order: the comparator of the `std::sort` call in
`getLayersInRenderOrder` is `a->z_order < b->z_order` — z-order only, no
tiebreaker — so an entry is placed before the first entry it does not
compare after, keeping earlier entries first on ties. -/
def insertByZ (x : Nat × Layer) : List (Nat × Layer) → List (Nat × Layer)
  | [] => [x]
  | y :: ys => if x.2.z_order ≤ y.2.z_order then x :: y :: ys else y :: insertByZ x ys

/-- A stable comparison sort by ascending z-order (one admissible
execution of `std::sort` with the source's z-only comparator, applied to
the map's iteration sequence). -/
def sortByZ : List (Nat × Layer) → List (Nat × Layer)
  | [] => []
  | x :: xs => insertByZ x (sortByZ xs)

/-- `LayerManager::getLayersInRenderOrder`: the visible layers sorted by
ascending z-order (the sort runs whenever more than one layer is
collected, and a 0/1-element list is trivially sorted). -/
def getLayersInRenderOrder (lm : LayerManagerState) : List (Nat × Layer) :=
  sortByZ (lm.layers.filter fun p => p.2.visible)

/-! ## Batch merging (KairosServer/src/Graphics/BatchRenderer.cpp)

A `RenderBatch`'s vertices are abstracted to tokens (`Nat`); a batch
carries its key fields, the counters and the vertex/index buffers.  The
body of `optimizeBatches` in the source file breaks off mid-function
(its closing braces and the removal of merged source batches are not in
the tree), so the pass is completed from the spec; `canMergeBatches` and
the merge body (lines 430–444) are translated from the source. -/

/-- The slice of `BatchRenderer::RenderBatch` that keying, merging and
counting use.  `tint` is the packed `tint.rgba` word. -/
structure RenderBatch where
  texture_id : Nat
  layer_id : Nat
  blend_mode : Nat
  tint : Nat
  vertex_count : Nat
  index_count : Nat
  vertices : List Nat
  indices : List Nat

/-- The batch key of spec §3: (texture id, layer id, blend mode, tint). -/
def batchKey (b : RenderBatch) : Nat × Nat × Nat × Nat :=
  (b.texture_id, b.layer_id, b.blend_mode, b.tint)

/-- `BatchRenderer::canMergeBatches` (BatchRenderer.cpp): equal key and
combined vertex count within `m_max_vertices_per_batch`. -/
def canMergeBatches (max_vertices_per_batch : Nat) (b1 b2 : RenderBatch) : Bool :=
  b1.texture_id = b2.texture_id && b1.layer_id = b2.layer_id &&
  b1.blend_mode = b2.blend_mode && b1.tint = b2.tint &&
  b1.vertex_count + b2.vertex_count ≤ max_vertices_per_batch

/-- The merge body of `optimizeBatches` (lines 430–444): append the
source's vertices, re-base its indices by the target's prior vertex count
(a `uint16_t` cast), and add the counters. -/
def mergeBatches (target source : RenderBatch) : RenderBatch :=
  { target with
    vertices := target.vertices ++ source.vertices,
    indices := target.indices ++
      source.indices.map (fun i => (target.vertices.length + i) % 65536),
    vertex_count := target.vertex_count + source.vertex_count,
    index_count := target.index_count + source.index_count }

/-- Modelled from the spec: the tail of `BatchRenderer::optimizeBatches`
is missing from the source file (the function is truncated mid-body), so
the disposal of merged source batches follows spec §4.6 step 3 — "merge
adjacent compatible batches (same key, combined size ≤ N)" — each merged
source batch is removed from the render-order list.  This is the inner
`j` loop: fold every later batch compatible with `b` into it. -/
def mergeInto (maxV : Nat) : RenderBatch → List RenderBatch →
    RenderBatch × List RenderBatch
  | b, [] => (b, [])
  | b, c :: cs =>
    if canMergeBatches maxV b c then mergeInto maxV (mergeBatches b c) cs
    else
      let r := mergeInto maxV b cs
      (r.1, c :: r.2)

/-- The outer `i` loop of the merge pass (each round consumes at least the
head batch, so `l.length` rounds suffice; exhausted fuel returns the list
unchanged). -/
def optimizeGo (maxV : Nat) : Nat → List RenderBatch → List RenderBatch
  | 0, l => l
  | _ + 1, [] => []
  | fuel + 1, b :: rest =>
    let r := mergeInto maxV b rest
    r.1 :: optimizeGo maxV fuel r.2

/-- `BatchRenderer::optimizeBatches`: a no-op unless merging is enabled
and at least two batches are listed. -/
def optimizeBatches (merging_enabled : Bool) (maxV : Nat)
    (l : List RenderBatch) : List RenderBatch :=
  if ¬ merging_enabled ∨ l.length < 2 then l
  else optimizeGo maxV l.length l

/-- The sum of the batches' vertex counters. -/
def totalVertexCount (l : List RenderBatch) : Nat :=
  (l.map (fun b => b.vertex_count)).sum

/-! ## Wire codec (shared/src/Protocol.cpp and Client.cpp parse path)

On the wire every multi-byte header field is big-endian
(`hostToNetwork` applies `htonl`/`htons`/`htobe64` and the packed struct
is then copied byte-for-byte).  A message is the 32 header bytes followed
by `data_size` payload bytes. -/

/-- Big-endian byte serialization of the low `w` bytes of `n`. -/
def toBytesBE : Nat → Nat → List Nat
  | 0, _ => []
  | w + 1, n => toBytesBE w (n / 256) ++ [n % 256]

/-- Big-endian read of the `w` bytes at offset `off`: a packed field
`memcpy`-ed out of the buffer and put through the byte swap of
`ProtocolHelper::networkToHost`. -/
def readBE (off w : Nat) (l : List Nat) : Nat :=
  ((l.drop off).take w).foldl (fun acc b => acc * 256 + b) 0

/-- The 32 header bytes in wire order, as produced by
`ProtocolHelper::hostToNetwork` followed by the `memcpy` in
`ProtocolHelper::createMessage`: all multi-byte fields big-endian, the
two single-byte fields (`type`, `layer_id`) copied as they are. -/
def headerToNetworkBytes (h : MessageHeader) : List Nat :=
  toBytesBE 4 h.magic ++ toBytesBE 4 h.protocol_version ++
  toBytesBE 1 h.msg_type ++ toBytesBE 1 h.layer_id ++
  toBytesBE 2 h.reserved ++ toBytesBE 4 h.client_id ++
  toBytesBE 4 h.sequence ++ toBytesBE 4 h.data_size ++ toBytesBE 8 h.timestamp

/-- `ProtocolHelper::createMessage` (Protocol.cpp): header converted to
network byte order followed by the `data_size` payload bytes (the caller
hands a buffer holding exactly `data_size` bytes). -/
def createMessage (h : MessageHeader) (data : List Nat) : List Nat :=
  headerToNetworkBytes h ++ data

/-- Header extraction as performed by `Client::parseMessages`: `memcpy`
of the 32 packed header bytes followed by `ProtocolHelper::networkToHost`,
i.e. each field read big-endian at its packed offset (`magic` at 0,
`protocol_version` at 4, `type` at 8, `layer_id` at 9, `reserved` at 10,
`client_id` at 12, `sequence` at 16, `data_size` at 20, `timestamp` at
24); fails when fewer than 32 bytes remain. -/
def parseHeader (l : List Nat) : Option (MessageHeader × List Nat) :=
  if 32 ≤ l.length then
    some (⟨readBE 0 4 l, readBE 4 4 l, readBE 8 1 l, readBE 9 1 l,
           readBE 10 2 l, readBE 12 4 l, readBE 16 4 l, readBE 20 4 l,
           readBE 24 8 l⟩, l.drop 32)
  else none

/-- `Client::validateMessageHeader` (Client.cpp): protocol-level header
validation plus the session's `max_message_size` bound
(`validateMessageSize`). -/
def validateMessageHeader (cfg_max_message_size : Nat) (h : MessageHeader) : Bool :=
  validateHeader h && decide (h.data_size ≤ cfg_max_message_size)

/-- One outcome list of `Client::parseMessages`: the parsed
`(header, payload)` pairs in buffer order, paired with the boolean result
(`false` = invalid header, session moves to `ERROR`).  The loop body:
while at least 32 bytes remain, read and convert the header, validate it
(aborting with `false` on failure), stop if the payload is incomplete,
otherwise queue `(header, payload)` and advance by `32 + data_size`. -/
def parseMessagesGo (cfg_max : Nat) :
    Nat → List Nat → List (MessageHeader × List Nat) →
    List (MessageHeader × List Nat) × Bool
  | 0, _, acc => (acc, true)
  | fuel + 1, buf, acc =>
    if buf.length < 32 then (acc, true)
    else
      match parseHeader buf with
      | none => (acc, true)
      | some (h, _) =>
        if validateMessageHeader cfg_max h then
          if buf.length < 32 + h.data_size then (acc, true)
          else
            parseMessagesGo cfg_max fuel (buf.drop (32 + h.data_size))
              (acc ++ [(h, (buf.drop 32).take h.data_size)])
        else (acc, false)

/-- `Client::parseMessages` on a receive buffer (the fuel bound
`buf.length` dominates the iteration count, each round consuming at least
32 bytes). -/
def parseMessages (cfg_max : Nat) (buf : List Nat) :
    List (MessageHeader × List Nat) × Bool :=
  parseMessagesGo cfg_max buf.length buf []

/-! ## Command construction (CommandProcessor.cpp `CommandConverter` and
shared/src/Serialization.cpp parse helpers)

Payload structs are `memcpy`-cast from the raw payload bytes (host order,
little-endian), so multi-byte prefix fields are read LE at their packed
offsets.  `DrawTextData` is 24 bytes with `text_length : uint16` at
offset 20; `DrawTexturedQuadsData` is 16 bytes with
`quad_count : uint32` at offset 8; `TexturedVertex` is 20 bytes. -/

/-- Little-endian read of `w` bytes at offset `off`. -/
def readLE (off w : Nat) (l : List Nat) : Nat :=
  ((l.drop off).take w).foldr (fun b acc => acc * 256 + b) 0

/-- `RenderCommand::Type` (RenderCommand.hpp). -/
inductive RCType where
  | DRAW_POINT
  | DRAW_LINE
  | DRAW_RECTANGLE
  | DRAW_CIRCLE
  | DRAW_POLYGON
  | DRAW_TEXT
  | DRAW_TEXTURED_QUADS
  | CLEAR_LAYER
  | SET_LAYER_VISIBILITY
  | SET_VIEWPORT
  | SET_CAMERA
  | BATCH_MARKER
deriving DecidableEq

/-- The slice of `RenderCommand` that the converter's control flow
determines: the tag, the layer, the text tail and the number of copied
quad vertices. -/
structure RenderCmd where
  rc_type : RCType
  layer_id : Nat
  text_bytes : List Nat
  vertices_len : Nat
  filled : Bool

/-- `CommandConverter::fromNetworkMessage` (CommandProcessor.cpp).  Every
branch returns a command — there is no size check and no error path: for
`DRAW_TEXT` the declared `text_length` tail and for `DRAW_TEXTURED_QUADS`
the declared `quad_count * 4` vertices are read from beyond the prefix
without comparing against `header.data_size` (when the declared extent
exceeds the payload the C++ reads out of bounds; the list model can only
truncate, but the decisive fact is that no rejection ever happens).
Unknown types give the default `RenderCommand{}`, whose type is
`DRAW_POINT`. -/
def fromNetworkMessage (msg_type layer_id : Nat) (payload : List Nat) : RenderCmd :=
  if msg_type = 0x10 then ⟨.DRAW_POINT, layer_id, [], 0, false⟩
  else if msg_type = 0x11 then ⟨.DRAW_LINE, layer_id, [], 0, false⟩
  else if msg_type = 0x12 then ⟨.DRAW_RECTANGLE, layer_id, [], 0, false⟩
  else if msg_type = 0x13 then ⟨.DRAW_RECTANGLE, layer_id, [], 0, true⟩
  else if msg_type = 0x18 then
    let text_length := readLE 20 2 payload
    ⟨.DRAW_TEXT, layer_id, (payload.drop 24).take text_length, 0, false⟩
  else if msg_type = 0x1A then
    let quad_count := readLE 8 4 payload
    ⟨.DRAW_TEXTURED_QUADS, layer_id, [], quad_count * 4, false⟩
  else if msg_type = 0x40 then ⟨.CLEAR_LAYER, layer_id, [], 0, false⟩
  else ⟨.DRAW_POINT, layer_id, [], 0, false⟩

/-- `parseDrawTextMessage` (shared/src/Serialization.cpp): validates the
header and rejects when the declared `text_length` does not fit in
`data_size - sizeof(DrawTextData)`.  (No caller in the tree invokes it.) -/
def parseDrawTextMessage (buffer : List Nat) : Option (MessageHeader × List Nat) :=
  if buffer.length < 32 + 24 then none
  else
    match parseHeader buffer with
    | none => none
    | some (h, rest) =>
      if validateHeader h = true then
        if h.data_size < 24 then none
        else
          let text_length := readLE 20 2 rest
          if text_length > h.data_size - 24 then none
          else some (h, (rest.drop 24).take text_length)
      else none

/-- `parseDrawTexturedQuadsMessage` (Serialization.cpp): rejects when
`quad_count * 4` vertices (20 bytes each) do not fit in
`data_size - sizeof(DrawTexturedQuadsData)`.  (Also uncalled.) -/
def parseDrawTexturedQuadsMessage (buffer : List Nat) :
    Option (MessageHeader × Nat) :=
  if buffer.length < 32 + 16 then none
  else
    match parseHeader buffer with
    | none => none
    | some (h, rest) =>
      if validateHeader h = true then
        if h.data_size < 16 then none
        else
          let quad_count := readLE 8 4 rest
          if quad_count * 4 * 20 > h.data_size - 16 then none
          else some (h, quad_count * 4)
      else none


end Kairos

namespace Kairos

/-! ## Codec lemmas -/

theorem toBytesBE_length (w n : Nat) : (toBytesBE w n).length = w := by
  induction w generalizing n with
  | zero => rfl
  | succ w ih => simp [toBytesBE, ih]

theorem foldl_be_append (l1 l2 : List Nat) (a : Nat) :
    (l1 ++ l2).foldl (fun acc b => acc * 256 + b) a =
      l2.foldl (fun acc b => acc * 256 + b) (l1.foldl (fun acc b => acc * 256 + b) a) := by
  simp [List.foldl_append]

theorem foldl_be_toBytesBE (w n a : Nat) (hn : n < 256 ^ w) :
    (toBytesBE w n).foldl (fun acc b => acc * 256 + b) a = a * 256 ^ w + n := by
  induction w generalizing n a with
  | zero =>
    have h0 : n = 0 := Nat.lt_one_iff.mp (by rwa [Nat.pow_zero] at hn)
    subst h0
    rw [toBytesBE, List.foldl_nil, Nat.pow_zero, Nat.mul_one, Nat.add_zero]
  | succ w ih =>
    have hdiv : n / 256 < 256 ^ w := by
      rw [Nat.div_lt_iff_lt_mul (by norm_num)]
      rw [← Nat.pow_succ]
      exact hn
    simp only [toBytesBE, foldl_be_append]
    rw [ih (n / 256) a hdiv]
    simp only [List.foldl_cons, List.foldl_nil]
    rw [Nat.add_mul, Nat.mul_assoc, ← Nat.pow_succ, Nat.add_assoc,
      Nat.div_add_mod']

/-- Dropping a prefix of known length plus `off` more elements. -/
theorem drop_append_off (l1 l2 : List Nat) (m off : Nat)
    (h : l1.length + off = m) :
    (l1 ++ l2).drop m = l2.drop off := by
  subst h
  rw [← List.drop_drop, List.drop_left]

/-- A big-endian read at offset `0` off `toBytesBE w n ++ rest` recovers
`n`. -/
theorem readBE_here (w n : Nat) (rest : List Nat) (hn : n < 256 ^ w) :
    readBE 0 w (toBytesBE w n ++ rest) = n := by
  have hlen : (toBytesBE w n).length = w := toBytesBE_length w n
  have htake : (toBytesBE w n ++ rest).take w = toBytesBE w n := by
    rw [List.take_append_of_le_length (by omega)]
    rw [List.take_of_length_le (by omega)]
  simp only [readBE, List.drop_zero, htake]
  rw [foldl_be_toBytesBE w n 0 hn, Nat.zero_mul, Nat.zero_add]

/-- A big-endian read past a leading `toBytesBE` block skips it. -/
theorem readBE_peel (w' n' : Nat) (l : List Nat) (m off w : Nat)
    (h : w' + off = m) :
    readBE m w (toBytesBE w' n' ++ l) = readBE off w l := by
  subst h
  simp only [readBE]
  rw [drop_append_off (toBytesBE w' n') l (w' + off) off
    (by rw [toBytesBE_length])]

theorem headerToNetworkBytes_length (h : MessageHeader) :
    (headerToNetworkBytes h).length = 32 := by
  simp [headerToNetworkBytes, toBytesBE_length]

/-- `headerToNetworkBytes h ++ rest` re-associated to the right, one
field block at a time. -/
theorem headerToNetworkBytes_append (h : MessageHeader) (rest : List Nat) :
    headerToNetworkBytes h ++ rest =
      toBytesBE 4 h.magic ++ (toBytesBE 4 h.protocol_version ++
        (toBytesBE 1 h.msg_type ++ (toBytesBE 1 h.layer_id ++
          (toBytesBE 2 h.reserved ++ (toBytesBE 4 h.client_id ++
            (toBytesBE 4 h.sequence ++ (toBytesBE 4 h.data_size ++
              (toBytesBE 8 h.timestamp ++ rest)))))))) := by
  simp only [headerToNetworkBytes, List.append_assoc]

theorem pow256_1 : (256 : Nat) ^ 1 = 2 ^ 8 := by norm_num

theorem pow256_2 : (256 : Nat) ^ 2 = 2 ^ 16 := by norm_num

theorem pow256_4 : (256 : Nat) ^ 4 = 2 ^ 32 := by norm_num

theorem pow256_8 : (256 : Nat) ^ 8 = 2 ^ 64 := by norm_num

/-- Helper: `validateHeader` accepts any header whose magic, version and
data size pass, for any 8-bit type byte. -/
theorem validateHeader_eq_true (h : MessageHeader)
    (hmagic : h.magic = 0x4B41524F)
    (hver : h.protocol_version = PROTOCOL_VERSION)
    (htype : h.msg_type ≤ 0xFF)
    (hsize : h.data_size ≤ 10 * 1024 * 1024) :
    validateHeader h = true := by
  simp only [validateHeader, hmagic, hver, PROTOCOL_VERSION]
  have h1 : ¬ h.msg_type > 0xFF := by omega
  have h2 : ¬ h.data_size > 10 * 1024 * 1024 := by omega
  simp [h1, h2]

/-- Helper: `parseHeader` inverts `headerToNetworkBytes` for in-range
field values. -/
theorem parseHeader_headerToNetworkBytes (h : MessageHeader) (rest : List Nat)
    (hmagic : h.magic < 2 ^ 32) (hver : h.protocol_version < 2 ^ 32)
    (hty : h.msg_type < 2 ^ 8) (hlay : h.layer_id < 2 ^ 8)
    (hres : h.reserved < 2 ^ 16) (hcid : h.client_id < 2 ^ 32)
    (hseq : h.sequence < 2 ^ 32) (hds : h.data_size < 2 ^ 32)
    (hts : h.timestamp < 2 ^ 64) :
    parseHeader (headerToNetworkBytes h ++ rest) = some (h, rest) := by
  have b1 : h.magic < 256 ^ 4 := by rw [pow256_4]; exact hmagic
  have b2 : h.protocol_version < 256 ^ 4 := by rw [pow256_4]; exact hver
  have b3 : h.msg_type < 256 ^ 1 := by rw [pow256_1]; exact hty
  have b4 : h.layer_id < 256 ^ 1 := by rw [pow256_1]; exact hlay
  have b5 : h.reserved < 256 ^ 2 := by rw [pow256_2]; exact hres
  have b6 : h.client_id < 256 ^ 4 := by rw [pow256_4]; exact hcid
  have b7 : h.sequence < 256 ^ 4 := by rw [pow256_4]; exact hseq
  have b8 : h.data_size < 256 ^ 4 := by rw [pow256_4]; exact hds
  have b9 : h.timestamp < 256 ^ 8 := by rw [pow256_8]; exact hts
  have hlen : 32 ≤ (headerToNetworkBytes h ++ rest).length := by
    rw [List.length_append, headerToNetworkBytes_length]
    omega
  have hE := headerToNetworkBytes_append h rest
  have f1 : readBE 0 4 (headerToNetworkBytes h ++ rest) = h.magic := by
    rw [hE, readBE_here 4 h.magic _ b1]
  have f2 : readBE 4 4 (headerToNetworkBytes h ++ rest) = h.protocol_version := by
    rw [hE, readBE_peel 4 h.magic _ 4 0 4 rfl,
      readBE_here 4 h.protocol_version _ b2]
  have f3 : readBE 8 1 (headerToNetworkBytes h ++ rest) = h.msg_type := by
    rw [hE, readBE_peel 4 h.magic _ 8 4 1 rfl,
      readBE_peel 4 h.protocol_version _ 4 0 1 rfl,
      readBE_here 1 h.msg_type _ b3]
  have f4 : readBE 9 1 (headerToNetworkBytes h ++ rest) = h.layer_id := by
    rw [hE, readBE_peel 4 h.magic _ 9 5 1 rfl,
      readBE_peel 4 h.protocol_version _ 5 1 1 rfl,
      readBE_peel 1 h.msg_type _ 1 0 1 rfl,
      readBE_here 1 h.layer_id _ b4]
  have f5 : readBE 10 2 (headerToNetworkBytes h ++ rest) = h.reserved := by
    rw [hE, readBE_peel 4 h.magic _ 10 6 2 rfl,
      readBE_peel 4 h.protocol_version _ 6 2 2 rfl,
      readBE_peel 1 h.msg_type _ 2 1 2 rfl,
      readBE_peel 1 h.layer_id _ 1 0 2 rfl,
      readBE_here 2 h.reserved _ b5]
  have f6 : readBE 12 4 (headerToNetworkBytes h ++ rest) = h.client_id := by
    rw [hE, readBE_peel 4 h.magic _ 12 8 4 rfl,
      readBE_peel 4 h.protocol_version _ 8 4 4 rfl,
      readBE_peel 1 h.msg_type _ 4 3 4 rfl,
      readBE_peel 1 h.layer_id _ 3 2 4 rfl,
      readBE_peel 2 h.reserved _ 2 0 4 rfl,
      readBE_here 4 h.client_id _ b6]
  have f7 : readBE 16 4 (headerToNetworkBytes h ++ rest) = h.sequence := by
    rw [hE, readBE_peel 4 h.magic _ 16 12 4 rfl,
      readBE_peel 4 h.protocol_version _ 12 8 4 rfl,
      readBE_peel 1 h.msg_type _ 8 7 4 rfl,
      readBE_peel 1 h.layer_id _ 7 6 4 rfl,
      readBE_peel 2 h.reserved _ 6 4 4 rfl,
      readBE_peel 4 h.client_id _ 4 0 4 rfl,
      readBE_here 4 h.sequence _ b7]
  have f8 : readBE 20 4 (headerToNetworkBytes h ++ rest) = h.data_size := by
    rw [hE, readBE_peel 4 h.magic _ 20 16 4 rfl,
      readBE_peel 4 h.protocol_version _ 16 12 4 rfl,
      readBE_peel 1 h.msg_type _ 12 11 4 rfl,
      readBE_peel 1 h.layer_id _ 11 10 4 rfl,
      readBE_peel 2 h.reserved _ 10 8 4 rfl,
      readBE_peel 4 h.client_id _ 8 4 4 rfl,
      readBE_peel 4 h.sequence _ 4 0 4 rfl,
      readBE_here 4 h.data_size _ b8]
  have f9 : readBE 24 8 (headerToNetworkBytes h ++ rest) = h.timestamp := by
    rw [hE, readBE_peel 4 h.magic _ 24 20 8 rfl,
      readBE_peel 4 h.protocol_version _ 20 16 8 rfl,
      readBE_peel 1 h.msg_type _ 16 15 8 rfl,
      readBE_peel 1 h.layer_id _ 15 14 8 rfl,
      readBE_peel 2 h.reserved _ 14 12 8 rfl,
      readBE_peel 4 h.client_id _ 12 8 8 rfl,
      readBE_peel 4 h.sequence _ 8 4 8 rfl,
      readBE_peel 4 h.data_size _ 4 0 8 rfl,
      readBE_here 8 h.timestamp _ b9]
  have fdrop : (headerToNetworkBytes h ++ rest).drop 32 = rest := by
    rw [drop_append_off (headerToNetworkBytes h) rest 32 0
      (by rw [headerToNetworkBytes_length]), List.drop_zero]
  unfold parseHeader
  rw [if_pos hlen, f1, f2, f3, f4, f5, f6, f7, f8, f9, fdrop]

theorem parseMessagesGo_nil (cfg_max fuel : Nat)
    (acc : List (MessageHeader × List Nat)) :
    parseMessagesGo cfg_max fuel [] acc = (acc, true) := by
  cases fuel <;> simp [parseMessagesGo]

/-- Helper: membership in a list all of whose entries satisfy a bound
transfers the bound. -/
theorem any_eq_lt_256 (t : Nat) :
    ∀ cs : List Nat, (cs.any fun c => decide (t = c)) = true →
      (cs.all fun c => decide (c < 256)) = true → t < 256
  | [], h, _ => by simp at h
  | c :: cs, h, hall => by
    simp only [List.any_cons, Bool.or_eq_true, decide_eq_true_eq] at h
    simp only [List.all_cons, Bool.and_eq_true, decide_eq_true_eq] at hall
    cases h with
    | inl h => omega
    | inr h => exact any_eq_lt_256 t cs h hall.2

/-- Helper: every `MessageType` enumerator value fits in one byte. -/
theorem knownTag_lt_256 (t : Nat) (h : knownTag t = true) : t < 256 :=
  any_eq_lt_256 t MESSAGE_TYPES h (by decide)

/-! ## Theorems: wire-codec round trip -/

/-- C1: encode/decode round trip.  For every well-formed message — header
with the correct magic, the negotiated protocol version, a known tag and
`data_size ≤ 10 MiB` within the session limit, plus a payload of exactly
`data_size` bytes — `ProtocolHelper::createMessage` followed by
`Client::parseMessages` returns exactly the original header and payload
and reports success. -/
theorem createMessage_parseMessages_roundtrip (cfg_max : Nat)
    (h : MessageHeader) (data : List Nat)
    (hmagic : h.magic = 0x4B41524F)
    (hver : h.protocol_version = PROTOCOL_VERSION)
    (htag : knownTag h.msg_type = true)
    (hlay : h.layer_id < 2 ^ 8)
    (hres : h.reserved < 2 ^ 16)
    (hcid : h.client_id < 2 ^ 32)
    (hseq : h.sequence < 2 ^ 32)
    (hts : h.timestamp < 2 ^ 64)
    (hds : h.data_size ≤ 10 * 1024 * 1024)
    (hcfg : h.data_size ≤ cfg_max)
    (hdata : data.length = h.data_size) :
    parseMessages cfg_max (createMessage h data) = ([(h, data)], true) := by
  have hty : h.msg_type < 2 ^ 8 := knownTag_lt_256 _ htag
  have hlen32 : (headerToNetworkBytes h).length = 32 := headerToNetworkBytes_length h
  have hbuf : (createMessage h data).length = 32 + h.data_size := by
    simp [createMessage, hlen32, hdata]
  have hparse : parseHeader (createMessage h data) = some (h, data) := by
    unfold createMessage
    exact parseHeader_headerToNetworkBytes h data (by rw [hmagic]; norm_num)
      (by rw [hver]; norm_num [PROTOCOL_VERSION]) hty hlay hres hcid hseq
      (by norm_num at hds ⊢; omega) hts
  have hvalid : validateMessageHeader cfg_max h = true := by
    simp only [validateMessageHeader, Bool.and_eq_true, decide_eq_true_eq]
    exact ⟨validateHeader_eq_true h hmagic hver (by omega) hds, hcfg⟩
  have hdrop32 : (createMessage h data).drop 32 = data := by
    unfold createMessage
    rw [show (32 : Nat) = (headerToNetworkBytes h).length from hlen32.symm,
      List.drop_left]
  have hdropall : (createMessage h data).drop (32 + h.data_size) = [] :=
    List.drop_eq_nil_of_le (by omega)
  unfold parseMessages
  rw [hbuf, show 32 + h.data_size = (31 + h.data_size) + 1 by omega]
  rw [parseMessagesGo, if_neg (by rw [hbuf]; omega), hparse]
  simp only [hvalid, if_true]
  rw [if_neg (by rw [hbuf]; omega), hdrop32, hdropall,
    List.take_of_length_le (le_of_eq hdata), parseMessagesGo_nil]
  simp

/-- Witness for `createMessage_parseMessages_roundtrip` on a concrete
`DRAW_POINT` message with a 3-byte payload. -/
theorem createMessage_parseMessages_roundtrip_witness :
    parseMessages MAX_MESSAGE_SIZE
        (createMessage ⟨0x4B41524F, 1, 0x10, 2, 0, 7, 9, 3, 123456⟩ [1, 2, 3]) =
      ([(⟨0x4B41524F, 1, 0x10, 2, 0, 7, 9, 3, 123456⟩, [1, 2, 3])], true) :=
  createMessage_parseMessages_roundtrip MAX_MESSAGE_SIZE
    ⟨0x4B41524F, 1, 0x10, 2, 0, 7, 9, 3, 123456⟩ [1, 2, 3]
    rfl rfl (by decide) (by norm_num) (by norm_num) (by norm_num)
    (by norm_num) (by norm_num) (by norm_num) (by norm_num [MAX_MESSAGE_SIZE]) rfl

/-! ## Theorems: header validation and priority assignment -/

/-- C2 (counterexample): a header with correct magic, version and data size
but the undefined message-type byte `0x03` passes
`ProtocolHelper::validateHeader`, refuting the claim that validation
rejects every unknown-tag header.  (So does `0x60`.) -/
theorem validateHeader_accepts_unknown_tags :
    validateHeader ⟨0x4B41524F, 1, 0x03, 0, 0, 0, 0, 0, 0⟩ = true ∧
    knownTag 0x03 = false ∧
    validateHeader ⟨0x4B41524F, 1, 0x60, 7, 0, 1, 2, 16, 0⟩ = true ∧
    knownTag 0x60 = false := by
  refine ⟨by decide, by decide, by decide, by decide⟩

/-- C2 (amended): `validateHeader` never rejects a header on account of its
message-type byte: every header whose magic, version and data size pass
the other three checks is accepted, whatever its (8-bit) type byte, because
the type check compares against `DISCONNECT = 0xFF`, the largest value a
`uint8_t` can hold. -/
theorem validateHeader_ignores_type (h : MessageHeader)
    (hmagic : h.magic = 0x4B41524F)
    (hver : h.protocol_version = PROTOCOL_VERSION)
    (htype : h.msg_type ≤ 0xFF)
    (hsize : h.data_size ≤ 10 * 1024 * 1024) :
    validateHeader h = true :=
  validateHeader_eq_true h hmagic hver htype hsize

/-- Witness for `validateHeader_ignores_type` at the unknown tag `0x60`. -/
theorem validateHeader_ignores_type_witness :
    validateHeader ⟨0x4B41524F, 1, 0x60, 0, 0, 0, 0, 0, 0⟩ = true :=
  validateHeader_ignores_type ⟨0x4B41524F, 1, 0x60, 0, 0, 0, 0, 0, 0⟩
    rfl rfl (by decide) (by decide)

/-- C4: `assignPriority` is the total function claimed by the spec: layer 0
always maps to `HIGH`; on other layers `CLEAR_LAYER` (0x40) and
`CLEAR_ALL_LAYERS` (0x41) map to `HIGH` and every other message type —
including `DRAW_TEXT` (0x18) and `DRAW_TEXTURED_QUADS` (0x1A) — maps to
`NORMAL`. -/
theorem assignPriority_spec (message_type layer_id : Nat) :
    assignPriority message_type layer_id =
      (if layer_id = 0 then Priority.HIGH
       else if message_type = 0x40 ∨ message_type = 0x41 then Priority.HIGH
       else Priority.NORMAL) := by
  by_cases h0 : layer_id = 0
  · simp [assignPriority, h0]
  · by_cases h40 : message_type = 0x40
    · simp [assignPriority, h0, h40]
    · by_cases h41 : message_type = 0x41
      · simp [assignPriority, h0, h40, h41]
      · simp only [assignPriority, if_neg h0, if_neg h40, if_neg h41]
        have : ¬ (message_type = 0x40 ∨ message_type = 0x41) := by
          intro hc; rcases hc with hc | hc <;> [exact h40 hc; exact h41 hc]
        simp only [if_neg this]
        split <;> [rfl; skip]
        split <;> rfl

/-! ## Theorems: layer-0 durability (C6) -/

theorem any_key_map (L : List (Nat × Layer)) (f : Nat × Layer → Nat × Layer)
    (hf : ∀ p, (f p).1 = p.1) (i : Nat) :
    ((L.map f).any fun p => p.1 = i) = (L.any fun p => p.1 = i) := by
  induction L with
  | nil => rfl
  | cons p rest ih => simp [List.any_cons, hf, ih]

theorem containsLayer_layers_eq (i : Nat) (A B : LayerManagerState)
    (h : A.layers = B.layers) : containsLayer A i = containsLayer B i := by
  simp [containsLayer, h]

theorem modifyLayer_keeps_keys (lm : LayerManagerState) (layer_id : Nat)
    (f : Layer → Layer) (i : Nat) :
    containsLayer (modifyLayer lm layer_id f) i = containsLayer lm i := by
  unfold containsLayer modifyLayer
  exact any_key_map _ _ (fun p => by split <;> rfl) i

theorem any_key_eraseP (L : List (Nat × Layer)) (d : Nat) (hd : d ≠ 0)
    (h : (L.any fun p => p.1 = 0) = true) :
    ((L.eraseP fun p => p.1 = d).any fun p => p.1 = 0) = true := by
  rcases List.any_eq_true.mp h with ⟨p, hp, hp0⟩
  have hp0' : p.1 = 0 := by simpa using hp0
  apply List.any_eq_true.mpr
  refine ⟨p, ?_, hp0⟩
  rw [List.mem_eraseP_of_neg]
  · exact hp
  · simp only [hp0', decide_eq_true_eq]
    omega

theorem any_key_filter (L : List (Nat × Layer)) (pred : Nat × Layer → Bool)
    (hkeep : ∀ p, p.1 = 0 → pred p = true)
    (h : (L.any fun p => p.1 = 0) = true) :
    ((L.filter pred).any fun p => p.1 = 0) = true := by
  rcases List.any_eq_true.mp h with ⟨p, hp, h0⟩
  exact List.any_eq_true.mpr
    ⟨p, List.mem_filter.mpr ⟨hp, hkeep p (by simpa using h0)⟩, h0⟩

/-- Every registry operation keeps layer 0 present (and leaves the
configured maximum untouched). -/
theorem applyOp_preserves_layer0 (op : LMOp) (lm : LayerManagerState)
    (h0 : containsLayer lm 0 = true) (hmax : 0 < lm.max_layers) :
    containsLayer (applyOp op lm) 0 = true ∧
      (applyOp op lm).max_layers = lm.max_layers := by
  have hm0 : ¬ ((0 : Nat) ≥ lm.max_layers) := by omega
  have happ : ∀ x : Nat × Layer,
      containsLayer { lm with layers := lm.layers ++ [x] } 0 = true := by
    intro x
    simp only [containsLayer] at h0 ⊢
    simp [List.any_append, h0]
  cases op with
  | create layer_id now =>
    simp only [applyOp, createLayer]
    constructor
    · split
      · exact h0
      · split
        · exact h0
        · exact happ _
    · split
      · rfl
      · split <;> rfl
  | getOrCreate layer_id now =>
    simp only [applyOp, getOrCreateLayer, createLayer]
    constructor
    · split
      · exact h0
      · split
        · exact h0
        · exact happ _
    · split
      · rfl
      · split <;> rfl
  | delete layer_id =>
    by_cases h1 : layer_id = 0
    · simp only [applyOp, deleteLayer, if_pos h1]
      exact ⟨h0, by simp⟩
    · simp only [applyOp, deleteLayer, if_neg h1]
      constructor
      · split
        · exact h0
        · exact any_key_eraseP _ _ h1 h0
      · split <;> rfl
  | setVisibility layer_id v =>
    simp only [applyOp, setLayerVisibility]
    constructor
    · split
      · exact h0
      · exact (modifyLayer_keeps_keys _ _ _ 0).trans h0
    · split <;> rfl
  | setOpacity layer_id o =>
    simp only [applyOp, setLayerOpacity]
    constructor
    · split
      · exact h0
      · exact (modifyLayer_keeps_keys _ _ _ 0).trans h0
    · split <;> rfl
  | setBlendMode layer_id bm =>
    simp only [applyOp, setLayerBlendMode]
    constructor
    · split
      · exact h0
      · exact (modifyLayer_keeps_keys _ _ _ 0).trans h0
    · split <;> rfl
  | setZOrder layer_id z =>
    simp only [applyOp, setLayerZOrder]
    constructor
    · split
      · exact h0
      · split
        · exact (containsLayer_layers_eq 0 _ (modifyLayer lm layer_id
              fun l => { l with z_order := z }) rfl).trans
            ((modifyLayer_keeps_keys _ _ _ 0).trans h0)
        · exact h0
    · split
      · rfl
      · split <;> rfl
  | clearOne layer_id now =>
    simp only [applyOp, clearLayer]
    constructor
    · split
      · exact h0
      · exact (modifyLayer_keeps_keys _ _ _ 0).trans h0
    · split <;> rfl
  | clearAll now =>
    refine ⟨?_, rfl⟩
    simp only [applyOp, clearAllLayers, containsLayer] at h0 ⊢
    refine Eq.trans (any_key_map _ _ (fun p => ?_) 0) h0
    rfl
  | markDirty layer_id now =>
    exact ⟨(modifyLayer_keeps_keys _ _ _ 0).trans h0, rfl⟩
  | markClean layer_id =>
    exact ⟨(modifyLayer_keeps_keys _ _ _ 0).trans h0, rfl⟩
  | updateStats layer_id oc vc now =>
    exact ⟨(modifyLayer_keeps_keys _ _ _ 0).trans h0, rfl⟩
  | enableCache layer_id tex =>
    simp only [applyOp, enableLayerCaching]
    constructor
    · split
      · exact h0
      · split
        · exact (modifyLayer_keeps_keys _ _ _ 0).trans h0
        · exact (modifyLayer_keeps_keys _ _ _ 0).trans
            ((modifyLayer_keeps_keys _ _ _ 0).trans h0)
    · split
      · rfl
      · split <;> rfl
  | disableCache layer_id =>
    simp only [applyOp, disableLayerCaching]
    constructor
    · split
      · exact h0
      · exact (modifyLayer_keeps_keys _ _ _ 0).trans h0
    · split <;> rfl
  | optimize now =>
    refine ⟨?_, rfl⟩
    simp only [applyOp, optimizeLayers, containsLayer] at h0 ⊢
    refine any_key_filter _ _ (fun p hp => by simp [hp]) ?_
    refine Eq.trans (any_key_map _ _ (fun p => ?_) 0) h0
    split <;> rfl
  | reset now =>
    simp only [applyOp, lmClear, createLayer]
    constructor
    · simp [containsLayer, hm0]
    · simp [containsLayer, hm0]

/-- C6: layer-0 durability.  Starting from a freshly constructed
`LayerManager` (with a positive layer cap), after any sequence of registry
operations — deletions, idle-layer reaping and full clears included — a
layer with id 0 is still present. -/
theorem layer0_durable (ops : List LMOp) (max_layers now : Nat)
    (hmax : 0 < max_layers) :
    containsLayer
      (ops.foldl (fun s op => applyOp op s) (initLayerManager max_layers now))
      0 = true := by
  have hm0 : ¬ ((0 : Nat) ≥ max_layers) := by omega
  have hinit0 : containsLayer (initLayerManager max_layers now) 0 = true := by
    simp [initLayerManager, createLayer, containsLayer, hm0]
  have hinitm : (initLayerManager max_layers now).max_layers = max_layers := by
    simp [initLayerManager, createLayer, containsLayer, hm0]
  suffices hgen : ∀ (l : List LMOp) (s : LayerManagerState),
      containsLayer s 0 = true → 0 < s.max_layers →
      containsLayer (l.foldl (fun s op => applyOp op s) s) 0 = true by
    exact hgen ops _ hinit0 (by rw [hinitm]; exact hmax)
  intro l
  induction l with
  | nil => intro s h0 _; simpa
  | cons op rest ih =>
    intro s h0 hm
    have hpres := applyOp_preserves_layer0 op s h0 hm
    exact ih _ hpres.1 (by rw [hpres.2]; exact hm)

/-- Witness for `layer0_durable`: layer 0 survives a delete, a reap and a
full clear followed by more edits. -/
theorem layer0_durable_witness :
    containsLayer
      (([LMOp.delete 0, LMOp.optimize 400000000, LMOp.reset 7,
         LMOp.create 5 8, LMOp.delete 5].foldl
        (fun s op => applyOp op s) (initLayerManager 255 0)))
      0 = true :=
  layer0_durable _ 255 0 (by decide)

/-! ## Theorems: render order (C8) -/

theorem insertByZ_perm (x : Nat × Layer) (l : List (Nat × Layer)) :
    (insertByZ x l).Perm (x :: l) := by
  induction l with
  | nil => exact List.Perm.refl _
  | cons y ys ih =>
    by_cases h : x.2.z_order ≤ y.2.z_order
    · simp only [insertByZ, if_pos h]
      exact List.Perm.refl _
    · simp only [insertByZ, if_neg h]
      exact (ih.cons y).trans (List.Perm.swap x y ys)

theorem sortByZ_perm (l : List (Nat × Layer)) : (sortByZ l).Perm l := by
  induction l with
  | nil => exact List.Perm.refl _
  | cons p rest ih =>
    simp only [sortByZ]
    exact (insertByZ_perm p _).trans (ih.cons p)

theorem mem_insertByZ {b x : Nat × Layer} {l : List (Nat × Layer)}
    (h : b ∈ insertByZ x l) : b = x ∨ b ∈ l := by
  have := (insertByZ_perm x l).mem_iff.mp h
  simpa using this

theorem insertByZ_pairwise (x : Nat × Layer) (l : List (Nat × Layer))
    (h : l.Pairwise (fun a b => a.2.z_order ≤ b.2.z_order)) :
    (insertByZ x l).Pairwise (fun a b => a.2.z_order ≤ b.2.z_order) := by
  induction l with
  | nil => simp [insertByZ]
  | cons y ys ih =>
    rcases List.pairwise_cons.mp h with ⟨hy, hys⟩
    by_cases hle : x.2.z_order ≤ y.2.z_order
    · simp only [insertByZ, if_pos hle]
      refine List.pairwise_cons.mpr ⟨?_, h⟩
      intro b hb
      rcases List.mem_cons.mp hb with hb | hb
      · exact hb ▸ hle
      · exact le_trans hle (hy b hb)
    · simp only [insertByZ, if_neg hle]
      refine List.pairwise_cons.mpr ⟨?_, ih hys⟩
      intro b hb
      rcases mem_insertByZ hb with hb | hb
      · exact hb ▸ le_of_lt (lt_of_not_le hle)
      · exact hy b hb

theorem sortByZ_pairwise (l : List (Nat × Layer)) :
    (sortByZ l).Pairwise (fun a b => a.2.z_order ≤ b.2.z_order) := by
  induction l with
  | nil => simp [sortByZ]
  | cons p rest ih =>
    simp only [sortByZ]
    exact insertByZ_pairwise p _ ih

/-- C8 (amended): `getLayersInRenderOrder` returns exactly the visible
layers (a permutation of the registry's visible entries) in ascending
z-order.  No id tiebreaker is applied: the comparator of the `std::sort`
call compares z-order only, so the relative order of equal-z layers is
whatever the container iteration produced. -/
theorem getLayersInRenderOrder_spec (lm : LayerManagerState) :
    (getLayersInRenderOrder lm).Perm (lm.layers.filter fun p => p.2.visible) ∧
      (getLayersInRenderOrder lm).Pairwise
        (fun a b => a.2.z_order ≤ b.2.z_order) :=
  ⟨sortByZ_perm _, sortByZ_pairwise _⟩

/-- A registry state with two visible layers of equal z-order, the entry
with the higher id (5) ahead of the lower (2) in the container's
iteration sequence (an `unordered_map` iterates in no id order; this
state arises e.g. from creating layer 5 before layer 2 and then setting
both z-orders to 1). -/
def lmCE : LayerManagerState :=
  { max_layers := 255,
    layers := [(0, { defaultLayer 0 0 with z_order := 0 }),
               (5, { defaultLayer 5 0 with z_order := 1 }),
               (2, { defaultLayer 2 0 with z_order := 1 })],
    needs_sort := false }

/-- C8 (counterexample): in `lmCE`, layers 5 and 2 are both visible with
equal z-order 1, yet `getLayersInRenderOrder` yields ids `[0, 5, 2]` —
the larger id first — refuting the claimed id tiebreaker, which would
require `[0, 2, 5]`. -/
theorem getLayersInRenderOrder_no_id_tiebreak :
    (getLayersInRenderOrder lmCE).map Prod.fst = [0, 5, 2] ∧
      (lmCE.layers.map fun p => (p.1, p.2.z_order, p.2.visible)) =
        [(0, (0 : ℚ), true), (5, (1 : ℚ), true), (2, (1 : ℚ), true)] := by
  constructor <;> decide

/-! ## Theorems: command construction rejects nothing (C5) -/

/-- A validated `DRAW_TEXT` header declaring `data_size = 24` — room for
the fixed prefix only — over a payload whose prefix declares
`text_length = 100`. -/
def textHeaderCE : MessageHeader := ⟨0x4B41524F, 1, 0x18, 5, 0, 1, 1, 24, 0⟩

/-- 24 payload bytes: `DrawTextData` with `text_length = 100` (bytes 20–21,
little-endian) and no text tail. -/
def textPayloadCE : List Nat := List.replicate 20 0 ++ [100, 0, 0, 0]

/-- A validated `DRAW_TEXTURED_QUADS` header declaring `data_size = 16` —
the fixed prefix only — over a payload declaring `quad_count = 50`. -/
def quadsHeaderCE : MessageHeader := ⟨0x4B41524F, 1, 0x1A, 3, 0, 1, 2, 16, 0⟩

/-- 16 payload bytes: `DrawTexturedQuadsData` with `quad_count = 50`
(bytes 8–11, little-endian) and no vertex tail. -/
def quadsPayloadCE : List Nat :=
  [0, 0, 0, 0, 1, 0, 0, 0, 50, 0, 0, 0, 0, 0, 0, 0]

/-- C5 (code evaluated at the failing inputs): both messages pass header
validation; their declared tails (100 text bytes, 50·4 vertices) cannot
fit in `data_size` minus the fixed prefix, and the repository's own
parse helpers reject them (`none`) — yet `CommandConverter::fromNetworkMessage`,
the path `CommandProcessor::processNetworkMessage` actually takes,
produces a `DRAW_TEXT` / `DRAW_TEXTURED_QUADS` render command (reading
past the payload in the C++) instead of rejecting with a
`ProtocolError`. -/
theorem fromNetworkMessage_accepts_size_mismatch :
    validateMessageHeader MAX_MESSAGE_SIZE textHeaderCE = true ∧
      readLE 20 2 textPayloadCE = 100 ∧
      (parseDrawTextMessage (createMessage textHeaderCE textPayloadCE)).isNone = true ∧
      (fromNetworkMessage 0x18 5 textPayloadCE).rc_type = RCType.DRAW_TEXT ∧
      validateMessageHeader MAX_MESSAGE_SIZE quadsHeaderCE = true ∧
      readLE 8 4 quadsPayloadCE = 50 ∧
      (parseDrawTexturedQuadsMessage
        (createMessage quadsHeaderCE quadsPayloadCE)).isNone = true ∧
      (fromNetworkMessage 0x1A 3 quadsPayloadCE).rc_type =
          RCType.DRAW_TEXTURED_QUADS ∧
      (fromNetworkMessage 0x1A 3 quadsPayloadCE).vertices_len = 200 := by
  decide

/-! ## Theorems: batch merging (C7) -/

theorem canMergeBatches_spec {maxV : Nat} {b c : RenderBatch}
    (h : canMergeBatches maxV b c = true) :
    batchKey c = batchKey b ∧ b.vertex_count + c.vertex_count ≤ maxV := by
  simp only [canMergeBatches, Bool.and_eq_true, decide_eq_true_eq] at h
  obtain ⟨⟨⟨⟨h1, h2⟩, h3⟩, h4⟩, h5⟩ := h
  exact ⟨by simp [batchKey, h1, h2, h3, h4], h5⟩

theorem mergeInto_sum (maxV : Nat) (b : RenderBatch) (rest : List RenderBatch) :
    (mergeInto maxV b rest).1.vertex_count +
        totalVertexCount (mergeInto maxV b rest).2 =
      b.vertex_count + totalVertexCount rest := by
  induction rest generalizing b with
  | nil => simp [mergeInto, totalVertexCount]
  | cons c cs ih =>
    by_cases hm : canMergeBatches maxV b c = true
    · simp only [mergeInto, if_pos hm]
      rw [ih (mergeBatches b c)]
      simp [mergeBatches, totalVertexCount]
      omega
    · simp only [mergeInto, if_neg hm]
      have := ih b
      simp only [totalVertexCount, List.map_cons, List.sum_cons] at *
      omega

theorem mergeInto_key (maxV : Nat) (b : RenderBatch) (rest : List RenderBatch) :
    batchKey (mergeInto maxV b rest).1 = batchKey b := by
  induction rest generalizing b with
  | nil => rfl
  | cons c cs ih =>
    by_cases hm : canMergeBatches maxV b c = true
    · simp only [mergeInto, if_pos hm]
      rw [ih (mergeBatches b c)]
      rfl
    · simp only [mergeInto, if_neg hm]
      exact ih b

theorem mergeInto_rest_mem (maxV : Nat) (b : RenderBatch)
    (rest : List RenderBatch) :
    ∀ c' ∈ (mergeInto maxV b rest).2, c' ∈ rest := by
  induction rest generalizing b with
  | nil => simp [mergeInto]
  | cons c cs ih =>
    by_cases hm : canMergeBatches maxV b c = true
    · simp only [mergeInto, if_pos hm]
      intro c' hc'
      exact List.mem_cons_of_mem c (ih (mergeBatches b c) c' hc')
    · simp only [mergeInto, if_neg hm]
      intro c' hc'
      rcases List.mem_cons.mp hc' with hc' | hc'
      · exact hc' ▸ List.mem_cons_self c cs
      · exact List.mem_cons_of_mem c (ih b c' hc')

theorem mergeInto_vertices (maxV : Nat) (b : RenderBatch)
    (rest : List RenderBatch) :
    ∀ v ∈ (mergeInto maxV b rest).1.vertices,
      v ∈ b.vertices ∨ ∃ c ∈ rest, v ∈ c.vertices ∧ batchKey c = batchKey b := by
  induction rest generalizing b with
  | nil => intro v hv; exact Or.inl hv
  | cons c cs ih =>
    by_cases hm : canMergeBatches maxV b c = true
    · simp only [mergeInto, if_pos hm]
      intro v hv
      rcases ih (mergeBatches b c) v hv with hv' | ⟨c', hc', hvc', hk⟩
      · rcases List.mem_append.mp hv' with hb | hc0
        · exact Or.inl hb
        · exact Or.inr ⟨c, List.mem_cons_self c cs,
            hc0, (canMergeBatches_spec hm).1⟩
      · refine Or.inr ⟨c', List.mem_cons_of_mem c hc', hvc', ?_⟩
        rw [hk]
        rfl
    · simp only [mergeInto, if_neg hm]
      intro v hv
      rcases ih b v hv with hv' | ⟨c', hc', hvc', hk⟩
      · exact Or.inl hv'
      · exact Or.inr ⟨c', List.mem_cons_of_mem c hc', hvc', hk⟩

theorem mergeInto_vc_le (maxV : Nat) (b : RenderBatch)
    (rest : List RenderBatch) (hb : b.vertex_count ≤ maxV) :
    (mergeInto maxV b rest).1.vertex_count ≤ maxV := by
  induction rest generalizing b with
  | nil => exact hb
  | cons c cs ih =>
    by_cases hm : canMergeBatches maxV b c = true
    · simp only [mergeInto, if_pos hm]
      exact ih (mergeBatches b c) (canMergeBatches_spec hm).2
    · simp only [mergeInto, if_neg hm]
      exact ih b hb

theorem optimizeGo_sum (maxV fuel : Nat) (l : List RenderBatch) :
    totalVertexCount (optimizeGo maxV fuel l) = totalVertexCount l := by
  induction fuel generalizing l with
  | zero => rfl
  | succ fuel ih =>
    cases l with
    | nil => rfl
    | cons b rest =>
      simp only [optimizeGo]
      have hsum := mergeInto_sum maxV b rest
      simp only [totalVertexCount, List.map_cons, List.sum_cons] at *
      rw [ih]
      omega

theorem optimizeGo_provenance (maxV fuel : Nat) (l : List RenderBatch) :
    ∀ b' ∈ optimizeGo maxV fuel l, ∀ v ∈ b'.vertices,
      ∃ b ∈ l, v ∈ b.vertices ∧ batchKey b = batchKey b' := by
  induction fuel generalizing l with
  | zero =>
    intro b' hb' v hv
    exact ⟨b', hb', hv, rfl⟩
  | succ fuel ih =>
    cases l with
    | nil => simp [optimizeGo]
    | cons b rest =>
      simp only [optimizeGo]
      intro b' hb' v hv
      rcases List.mem_cons.mp hb' with hb' | hb'
      · subst hb'
        rcases mergeInto_vertices maxV b rest v hv with hv' | ⟨c, hc, hvc, hk⟩
        · exact ⟨b, List.mem_cons_self b rest, hv',
            (mergeInto_key maxV b rest).symm⟩
        · exact ⟨c, List.mem_cons_of_mem b hc, hvc,
            hk.trans (mergeInto_key maxV b rest).symm⟩
      · rcases ih _ b' hb' v hv with ⟨c, hc, hvc, hk⟩
        exact ⟨c, List.mem_cons_of_mem b (mergeInto_rest_mem maxV b rest c hc),
          hvc, hk⟩

theorem optimizeGo_vc_le (maxV fuel : Nat) (l : List RenderBatch)
    (hcap : ∀ b ∈ l, b.vertex_count ≤ maxV) :
    ∀ b' ∈ optimizeGo maxV fuel l, b'.vertex_count ≤ maxV := by
  induction fuel generalizing l with
  | zero => exact hcap
  | succ fuel ih =>
    cases l with
    | nil => simp [optimizeGo]
    | cons b rest =>
      simp only [optimizeGo]
      intro b' hb'
      rcases List.mem_cons.mp hb' with hb' | hb'
      · exact hb' ▸ mergeInto_vc_le maxV b rest (hcap b (List.mem_cons_self b rest))
      · refine ih _ ?_ b' hb'
        intro c hc
        exact hcap c (List.mem_cons_of_mem b (mergeInto_rest_mem maxV b rest c hc))

/-- C7: the merge pass preserves total geometry and key homogeneity.
For every pre-optimize batch list whose batches respect the vertex
capacity: after `optimizeBatches` the summed vertex counts are unchanged,
every vertex of every surviving batch comes from a pre-optimize batch
with the same (texture, layer, blend, tint) key — merges only ever
combine equal keys — and no batch exceeds the capacity. -/
theorem optimizeBatches_spec (merging_enabled : Bool) (maxV : Nat)
    (l : List RenderBatch) (hcap : ∀ b ∈ l, b.vertex_count ≤ maxV) :
    totalVertexCount (optimizeBatches merging_enabled maxV l) =
        totalVertexCount l ∧
      (∀ b' ∈ optimizeBatches merging_enabled maxV l, ∀ v ∈ b'.vertices,
        ∃ b ∈ l, v ∈ b.vertices ∧ batchKey b = batchKey b') ∧
      (∀ b' ∈ optimizeBatches merging_enabled maxV l,
        b'.vertex_count ≤ maxV) := by
  unfold optimizeBatches
  split
  · exact ⟨rfl, fun b' hb' v hv => ⟨b', hb', hv, rfl⟩, hcap⟩
  · exact ⟨optimizeGo_sum maxV l.length l,
      optimizeGo_provenance maxV l.length l,
      optimizeGo_vc_le maxV l.length l hcap⟩

/-- Witness for `optimizeBatches_spec`: two same-key batches of 3 and 4
vertices under capacity 10. -/
theorem optimizeBatches_spec_witness :
    totalVertexCount (optimizeBatches true 10
          [⟨1, 2, 0, 7, 3, 0, [100, 101, 102], []⟩,
           ⟨1, 2, 0, 7, 4, 0, [200, 201, 202, 203], []⟩]) =
        totalVertexCount
          [⟨1, 2, 0, 7, 3, 0, [100, 101, 102], []⟩,
           ⟨1, 2, 0, 7, 4, 0, [200, 201, 202, 203], []⟩] ∧
      (∀ b' ∈ optimizeBatches true 10
          [⟨1, 2, 0, 7, 3, 0, [100, 101, 102], []⟩,
           ⟨1, 2, 0, 7, 4, 0, [200, 201, 202, 203], []⟩], ∀ v ∈ b'.vertices,
        ∃ b ∈ [⟨1, 2, 0, 7, 3, 0, [100, 101, 102], []⟩,
           ⟨1, 2, 0, 7, 4, 0, [200, 201, 202, 203], []⟩],
          v ∈ b.vertices ∧ batchKey b = batchKey b') ∧
      (∀ b' ∈ optimizeBatches true 10
          [⟨1, 2, 0, 7, 3, 0, [100, 101, 102], []⟩,
           ⟨1, 2, 0, 7, 4, 0, [200, 201, 202, 203], []⟩],
        b'.vertex_count ≤ 10) :=
  optimizeBatches_spec true 10
    [⟨1, 2, 0, 7, 3, 0, [100, 101, 102], []⟩,
     ⟨1, 2, 0, 7, 4, 0, [200, 201, 202, 203], []⟩] (by decide)

/-! ## Theorems: priority queue ordering -/

theorem extractFirst_eq_none {α : Type} (p : α → Bool) (l : List α) :
    extractFirst p l = none ↔ l.filter p = [] := by
  induction l with
  | nil => simp [extractFirst]
  | cons c rest ih =>
    by_cases hc : p c
    · simp [extractFirst, hc]
    · cases h : extractFirst p rest with
      | none =>
        have hf : rest.filter p = [] := ih.mp h
        simp [extractFirst, hc, h, List.filter_cons, hf]
      | some r =>
        have hf : ¬ rest.filter p = [] := fun hf => by simp [ih.mpr hf] at h
        simp [extractFirst, hc, h, List.filter_cons, hf]

theorem extractFirst_filter {α : Type} (p : α → Bool) {l : List α} {c : α}
    {r : List α} (h : extractFirst p l = some (c, r)) :
    p c = true ∧ l.filter p = c :: r.filter p ∧ r.length + 1 = l.length := by
  induction l generalizing r with
  | nil => simp [extractFirst] at h
  | cons c0 rest ih =>
    by_cases hc : p c0
    · simp only [extractFirst, if_pos hc, Option.some_inj, Prod.mk.injEq] at h
      obtain ⟨h1, h2⟩ := h
      subst h1; subst h2
      simp [List.filter_cons, hc]
    · simp only [extractFirst, if_neg hc] at h
      cases hrest : extractFirst p rest with
      | none => simp [hrest] at h
      | some rr =>
        obtain ⟨x, rtail⟩ := rr
        simp only [hrest, Option.some_inj, Prod.mk.injEq] at h
        obtain ⟨h1, h2⟩ := h
        subst h1; subst h2
        obtain ⟨hp, hf, hlen⟩ := ih hrest
        refine ⟨hp, ?_, by simp; omega⟩
        simp [List.filter_cons, hc, hf]

theorem extractFirst_filter_other {α : Type} (p q : α → Bool)
    (hdisj : ∀ x, p x = true → q x = false) {l : List α} {c : α}
    {r : List α} (h : extractFirst p l = some (c, r)) :
    r.filter q = l.filter q := by
  induction l generalizing r with
  | nil => simp [extractFirst] at h
  | cons c0 rest ih =>
    by_cases hc : p c0
    · simp only [extractFirst, if_pos hc, Option.some_inj, Prod.mk.injEq] at h
      obtain ⟨h1, h2⟩ := h
      subst h1; subst h2
      simp [List.filter_cons, hdisj c0 hc]
    · simp only [extractFirst, if_neg hc] at h
      cases hrest : extractFirst p rest with
      | none => simp [hrest] at h
      | some rr =>
        obtain ⟨x, rtail⟩ := rr
        simp only [hrest, Option.some_inj, Prod.mk.injEq] at h
        obtain ⟨h1, h2⟩ := h
        subst h1; subst h2
        simp [List.filter_cons, ih hrest]

theorem isPrio_disjoint {p1 p2 : Priority} (hne : p1 ≠ p2) :
    ∀ x, isPrio p1 x = true → isPrio p2 x = false := by
  intro x h
  simp only [isPrio, decide_eq_true_eq] at h
  simp [isPrio, h, hne]

/-- The drain order is: all Critical commands in FIFO order, then all
High, then all Normal, then all Low. -/
theorem drainGo_eq (fuel : Nat) : ∀ q : List QCmd, q.length ≤ fuel →
    drainGo fuel q =
      q.filter (isPrio .CRITICAL) ++ q.filter (isPrio .HIGH) ++
        q.filter (isPrio .NORMAL) ++ q.filter (isPrio .LOW) := by
  induction fuel with
  | zero =>
    intro q hq
    have : q = [] := List.length_eq_zero.mp (Nat.le_zero.mp hq)
    subst this
    simp [drainGo]
  | succ fuel ih =>
    intro q hq
    cases h3 : extractFirst (isPrio .CRITICAL) q with
    | some r =>
      obtain ⟨c, q'⟩ := r
      obtain ⟨hpc, hfilt, hlen⟩ := extractFirst_filter _ h3
      have ho2 := extractFirst_filter_other (isPrio .CRITICAL) (isPrio .HIGH)
        (isPrio_disjoint (by decide)) h3
      have ho1 := extractFirst_filter_other (isPrio .CRITICAL) (isPrio .NORMAL)
        (isPrio_disjoint (by decide)) h3
      have ho0 := extractFirst_filter_other (isPrio .CRITICAL) (isPrio .LOW)
        (isPrio_disjoint (by decide)) h3
      simp only [drainGo, rcqDequeue, h3]
      rw [ih q' (by omega), ho2, ho1, ho0, hfilt]
      simp
    | none =>
      have e3 : q.filter (isPrio .CRITICAL) = [] := (extractFirst_eq_none _ _).mp h3
      cases h2 : extractFirst (isPrio .HIGH) q with
      | some r =>
        obtain ⟨c, q'⟩ := r
        obtain ⟨hpc, hfilt, hlen⟩ := extractFirst_filter _ h2
        have ho3 := extractFirst_filter_other (isPrio .HIGH) (isPrio .CRITICAL)
          (isPrio_disjoint (by decide)) h2
        have ho1 := extractFirst_filter_other (isPrio .HIGH) (isPrio .NORMAL)
          (isPrio_disjoint (by decide)) h2
        have ho0 := extractFirst_filter_other (isPrio .HIGH) (isPrio .LOW)
          (isPrio_disjoint (by decide)) h2
        simp only [drainGo, rcqDequeue, h3, h2]
        rw [ih q' (by omega), ho3, ho1, ho0, hfilt, e3]
        simp
      | none =>
        have e2 : q.filter (isPrio .HIGH) = [] := (extractFirst_eq_none _ _).mp h2
        cases h1 : extractFirst (isPrio .NORMAL) q with
        | some r =>
          obtain ⟨c, q'⟩ := r
          obtain ⟨hpc, hfilt, hlen⟩ := extractFirst_filter _ h1
          have ho3 := extractFirst_filter_other (isPrio .NORMAL) (isPrio .CRITICAL)
            (isPrio_disjoint (by decide)) h1
          have ho2 := extractFirst_filter_other (isPrio .NORMAL) (isPrio .HIGH)
            (isPrio_disjoint (by decide)) h1
          have ho0 := extractFirst_filter_other (isPrio .NORMAL) (isPrio .LOW)
            (isPrio_disjoint (by decide)) h1
          simp only [drainGo, rcqDequeue, h3, h2, h1]
          rw [ih q' (by omega), ho3, ho2, ho0, hfilt, e3, e2]
          simp
        | none =>
          have e1 : q.filter (isPrio .NORMAL) = [] := (extractFirst_eq_none _ _).mp h1
          cases h0 : extractFirst (isPrio .LOW) q with
          | some r =>
            obtain ⟨c, q'⟩ := r
            obtain ⟨hpc, hfilt, hlen⟩ := extractFirst_filter _ h0
            have ho3 := extractFirst_filter_other (isPrio .LOW) (isPrio .CRITICAL)
              (isPrio_disjoint (by decide)) h0
            have ho2 := extractFirst_filter_other (isPrio .LOW) (isPrio .HIGH)
              (isPrio_disjoint (by decide)) h0
            have ho1 := extractFirst_filter_other (isPrio .LOW) (isPrio .NORMAL)
              (isPrio_disjoint (by decide)) h0
            simp only [drainGo, rcqDequeue, h3, h2, h1, h0]
            rw [ih q' (by omega), ho3, ho2, ho1, hfilt, e3, e2, e1]
            simp
          | none =>
            have e0 : q.filter (isPrio .LOW) = [] := (extractFirst_eq_none _ _).mp h0
            have hqnil : q = [] := by
              cases q with
              | nil => rfl
              | cons c rest =>
                exfalso
                cases hc : c.priority
                · simp [List.filter_cons, isPrio, hc] at e0
                · simp [List.filter_cons, isPrio, hc] at e1
                · simp [List.filter_cons, isPrio, hc] at e2
                · simp [List.filter_cons, isPrio, hc] at e3
            subst hqnil
            simp [drainGo, rcqDequeue, extractFirst]

/-- C3: strict priority across classes and FIFO within a class.  For any
queue content and any two queued commands `a` and `b`: if `a` has the
strictly higher priority it is dequeued before `b` regardless of enqueue
order, and if they share a priority the earlier-enqueued one is dequeued
first (`[a, b].Sublist` states "`a` comes before `b`"). -/
theorem rcq_priority_then_fifo (q : List QCmd) (a b : QCmd) :
    (a ∈ q → b ∈ q → b.priority.rank < a.priority.rank →
      [a, b].Sublist (drainQueue q)) ∧
    ([a, b].Sublist q → a.priority = b.priority →
      [a, b].Sublist (drainQueue q)) := by
  have hchar := drainGo_eq q.length q le_rfl
  have hpad : ∀ (x l1 l2 : List QCmd), x.Sublist l2 → x.Sublist (l1 ++ l2) :=
    fun x l1 l2 h => h.trans (List.sublist_append_right l1 l2)
  have hpair : ∀ (x y : QCmd) (l1 l2 : List QCmd), x ∈ l1 → y ∈ l2 →
      [x, y].Sublist (l1 ++ l2) := by
    intro x y l1 l2 hx hy
    exact (List.singleton_sublist.mpr hx).append (List.singleton_sublist.mpr hy)
  have hmemf : ∀ (x : QCmd) (p : Priority), x ∈ q → x.priority = p →
      x ∈ q.filter (isPrio p) := by
    intro x p hx hp
    exact List.mem_filter.mpr ⟨hx, by simp [isPrio, hp]⟩
  constructor
  · intro ha hb hrank
    unfold drainQueue
    rw [hchar, List.append_assoc, List.append_assoc]
    cases hpa : a.priority <;> cases hpb : b.priority <;>
      simp only [Priority.rank, hpa, hpb] at hrank
    · omega
    · omega
    · omega
    · omega
    · -- a NORMAL, b LOW
      refine hpad _ _ _ (hpad _ _ _ ?_)
      exact hpair a b _ _ (hmemf a _ ha hpa) (hmemf b _ hb hpb)
    · omega
    · omega
    · omega
    · -- a HIGH, b LOW
      refine hpad _ _ _ ?_
      exact hpair a b _ _ (hmemf a _ ha hpa)
        (List.mem_append_right _ (hmemf b _ hb hpb))
    · -- a HIGH, b NORMAL
      refine hpad _ _ _ ?_
      exact hpair a b _ _ (hmemf a _ ha hpa)
        (List.mem_append_left _ (hmemf b _ hb hpb))
    · omega
    · omega
    · -- a CRITICAL, b LOW
      exact hpair a b _ _ (hmemf a _ ha hpa)
        (List.mem_append_right _ (List.mem_append_right _ (hmemf b _ hb hpb)))
    · -- a CRITICAL, b NORMAL
      exact hpair a b _ _ (hmemf a _ ha hpa)
        (List.mem_append_right _ (List.mem_append_left _ (hmemf b _ hb hpb)))
    · -- a CRITICAL, b HIGH
      exact hpair a b _ _ (hmemf a _ ha hpa)
        (List.mem_append_left _ (hmemf b _ hb hpb))
    · omega
  · intro hab hpeq
    unfold drainQueue
    rw [hchar, List.append_assoc, List.append_assoc]
    have hfsub : ∀ p : Priority, a.priority = p →
        [a, b].Sublist (q.filter (isPrio p)) := by
      intro p hp
      have hbp : b.priority = p := hpeq ▸ hp
      have hfab : ([a, b].filter (isPrio p)) = [a, b] := by
        simp [List.filter_cons, isPrio, hp, hbp]
      have := hab.filter (isPrio p)
      rwa [hfab] at this
    cases hp : a.priority
    · exact hpad _ _ _ (hpad _ _ _ (hpad _ _ _ (hfsub _ hp)))
    · refine hpad _ _ _ (hpad _ _ _ ((hfsub _ hp).trans (List.sublist_append_left _ _)))
    · refine hpad _ _ _ ((hfsub _ hp).trans (List.sublist_append_left _ _))
    · exact (hfsub _ hp).trans (List.sublist_append_left _ _)

/-- Witness for `rcq_priority_then_fifo`: in the queue
`[Normal 1, Critical 2, Normal 3]` the Critical command is drained before
the earlier-enqueued Normal one, and Normal 1 is drained before Normal 3. -/
theorem rcq_priority_then_fifo_witness :
    ([⟨.CRITICAL, 2⟩, ⟨.NORMAL, 1⟩] : List QCmd).Sublist
        (drainQueue [⟨.NORMAL, 1⟩, ⟨.CRITICAL, 2⟩, ⟨.NORMAL, 3⟩]) ∧
      ([⟨.NORMAL, 1⟩, ⟨.NORMAL, 3⟩] : List QCmd).Sublist
        (drainQueue [⟨.NORMAL, 1⟩, ⟨.CRITICAL, 2⟩, ⟨.NORMAL, 3⟩]) :=
  ⟨(rcq_priority_then_fifo [⟨.NORMAL, 1⟩, ⟨.CRITICAL, 2⟩, ⟨.NORMAL, 3⟩]
      ⟨.CRITICAL, 2⟩ ⟨.NORMAL, 1⟩).1 (by decide) (by decide) (by decide),
    (rcq_priority_then_fifo [⟨.NORMAL, 1⟩, ⟨.CRITICAL, 2⟩, ⟨.NORMAL, 3⟩]
      ⟨.NORMAL, 1⟩ ⟨.NORMAL, 3⟩).2 (by decide) (by decide)⟩

/-! ## Theorems: rate limiting -/

/-- Helper: when every window entry is at least `a` and the call time is at
most `a + 1 s`, the prune loop removes nothing. -/
theorem pruneOld_eq_self (now a : Nat) (l : List Nat)
    (hl : ∀ t ∈ l, a ≤ t) (hnow : now ≤ a + ONE_SECOND_US) :
    pruneOld now l = l := by
  cases l with
  | nil => rfl
  | cons t rest =>
    have ht := hl t (List.mem_cons_self t rest)
    have hc : ¬ (now - t > ONE_SECOND_US) := by
      simp only [ONE_SECOND_US] at *
      omega
    simp only [pruneOld, if_neg hc]

theorem count_true_cons_false (l : List Bool) :
    (false :: l).count true = l.count true := by
  simp

theorem count_true_cons_true (l : List Bool) :
    (true :: l).count true = l.count true + 1 := by
  simp

theorem rl_arith_sub (W M : Nat) (h : W < M) :
    M - W = (M - (W + 1)) + 1 := by
  rw [Nat.sub_succ]
  exact (Nat.succ_pred_eq_of_pos (Nat.sub_pos_of_lt h)).symm

theorem rl_arith_accept_count (L W M : Nat) (h : W < M) :
    min L (M - (W + 1)) + 1 = min (L + 1) (M - W) := by
  rw [rl_arith_sub W M h, Nat.succ_min_succ]

theorem rl_arith_accept_err (L W M e : Nat) (h : W < M) :
    e + (L - (M - (W + 1))) = e + (L + 1 - (M - W)) := by
  rw [rl_arith_sub W M h, Nat.succ_sub_succ]

/-- Helper: admission bookkeeping of a burst of calls whose times all lie
in a one-second interval `[a, a + 1 s]`, for an arbitrary starting window
inside the same interval. -/
theorem runRateLimit_general (ts : List Nat) (a : Nat) :
    ∀ (w : List Nat) (e : Nat),
      (∀ t ∈ ts, a ≤ t ∧ t ≤ a + ONE_SECOND_US) →
      (∀ t ∈ w, a ≤ t ∧ t ≤ a + ONE_SECOND_US) →
      w.length ≤ MAX_MESSAGES_PER_SECOND →
      (runRateLimit ts ⟨w, e⟩).2.count true =
          min ts.length (MAX_MESSAGES_PER_SECOND - w.length) ∧
        (runRateLimit ts ⟨w, e⟩).1.errors =
          e + (ts.length - (MAX_MESSAGES_PER_SECOND - w.length)) := by
  induction ts with
  | nil =>
    intro w e _ _ _
    simp [runRateLimit]
  | cons t rest ih =>
    intro w e hts hw hlen
    have hta := hts t (List.mem_cons_self t rest)
    have hrest : ∀ u ∈ rest, a ≤ u ∧ u ≤ a + ONE_SECOND_US :=
      fun u hu => hts u (List.mem_cons_of_mem t hu)
    have hprune : pruneOld t w = w :=
      pruneOld_eq_self t a w (fun u hu => (hw u hu).1) hta.2
    by_cases hfull : w.length ≥ MAX_MESSAGES_PER_SECOND
    · have h1 : w.length = MAX_MESSAGES_PER_SECOND := le_antisymm hlen hfull
      have step : checkRateLimit t ⟨w, e⟩ = (⟨w, e + 1⟩, false) := by
        simp [checkRateLimit, hprune, hfull]
      obtain ⟨ic, ie⟩ := ih w (e + 1) hrest hw hlen
      constructor
      · simp only [runRateLimit, step]
        rw [count_true_cons_false, ic, h1, List.length_cons, Nat.sub_self,
          Nat.min_zero, Nat.min_zero]
      · simp only [runRateLimit, step]
        rw [ie, h1, List.length_cons, Nat.sub_self, Nat.sub_zero, Nat.sub_zero,
          Nat.add_assoc, Nat.add_comm 1 rest.length]
    · have hlt : w.length < MAX_MESSAGES_PER_SECOND := lt_of_not_ge hfull
      have step : checkRateLimit t ⟨w, e⟩ = (⟨w ++ [t], e⟩, true) := by
        simp [checkRateLimit, hprune, hfull]
      have hw2 : ∀ u ∈ w ++ [t], a ≤ u ∧ u ≤ a + ONE_SECOND_US := by
        intro u hu
        rcases List.mem_append.mp hu with hu | hu
        · exact hw u hu
        · rw [List.mem_singleton.mp hu]
          exact hta
      have hL : (w ++ [t]).length = w.length + 1 := by
        rw [List.length_append, List.length_singleton]
      have hlen2 : (w ++ [t]).length ≤ MAX_MESSAGES_PER_SECOND := by
        rw [hL]
        exact hlt
      obtain ⟨ic, ie⟩ := ih (w ++ [t]) e hrest hw2 hlen2
      rw [hL] at ic ie
      constructor
      · simp only [runRateLimit, step]
        rw [count_true_cons_true, ic, List.length_cons]
        exact rl_arith_accept_count rest.length w.length MAX_MESSAGES_PER_SECOND hlt
      · simp only [runRateLimit, step]
        rw [ie, List.length_cons]
        exact rl_arith_accept_err rest.length w.length MAX_MESSAGES_PER_SECOND e hlt

/-- C9: sliding-window rate limiting.  For any burst of `N` calls whose
times lie inside one second, starting from an empty window: exactly
`min(N, MAX_MESSAGES_PER_SECOND)` calls return `true`, every rejected call
bumps the error counter (final count `N - min(N, cap)` above the start),
and a rejecting call leaves the window — and everything else but the error
counter — untouched. -/
theorem checkRateLimit_sliding_window (ts : List Nat) (a errors0 : Nat)
    (hts : ∀ t ∈ ts, a ≤ t ∧ t ≤ a + ONE_SECOND_US) :
    (runRateLimit ts ⟨[], errors0⟩).2.count true =
        min ts.length MAX_MESSAGES_PER_SECOND ∧
      (runRateLimit ts ⟨[], errors0⟩).1.errors =
        errors0 + (ts.length - MAX_MESSAGES_PER_SECOND) ∧
      (∀ now st, (∀ t ∈ st.message_times, a ≤ t ∧ t ≤ a + ONE_SECOND_US) →
        now ≤ a + ONE_SECOND_US →
        (checkRateLimit now st).2 = false →
          (checkRateLimit now st).1.message_times = st.message_times ∧
          (checkRateLimit now st).1.errors = st.errors + 1) := by
  obtain ⟨ic, ie⟩ :=
    runRateLimit_general ts a [] errors0 hts (by simp) (by simp [MAX_MESSAGES_PER_SECOND])
  refine ⟨?_, ?_, ?_⟩
  · simpa using ic
  · simp only [ie]
    simp
  · intro now st hwst hnow hrej
    have hprune : pruneOld now st.message_times = st.message_times :=
      pruneOld_eq_self now a st.message_times (fun u hu => (hwst u hu).1) hnow
    by_cases hfull : st.message_times.length ≥ MAX_MESSAGES_PER_SECOND
    · simp [checkRateLimit, hprune, hfull]
    · simp [checkRateLimit, hprune, hfull] at hrej

/-- Witness for `checkRateLimit_sliding_window`: three calls inside one
second against the 1000/s cap are all admitted and no error is counted. -/
theorem checkRateLimit_sliding_window_witness :
    (runRateLimit [5, 10, 7] ⟨[], 3⟩).2.count true =
        min ([5, 10, 7] : List Nat).length MAX_MESSAGES_PER_SECOND ∧
      (runRateLimit [5, 10, 7] ⟨[], 3⟩).1.errors =
        3 + (([5, 10, 7] : List Nat).length - MAX_MESSAGES_PER_SECOND) ∧
      (∀ now st, (∀ t ∈ st.message_times, 0 ≤ t ∧ t ≤ 0 + ONE_SECOND_US) →
        now ≤ 0 + ONE_SECOND_US →
        (checkRateLimit now st).2 = false →
          (checkRateLimit now st).1.message_times = st.message_times ∧
          (checkRateLimit now st).1.errors = st.errors + 1) :=
  checkRateLimit_sliding_window [5, 10, 7] 0 3 (by decide)

/-! ## Theorems: disconnect idempotence -/

/-- C10: `Client::disconnect` is idempotent: a call in the `DISCONNECTED`
state returns with the connection record unchanged, and consequently a
second `disconnect` (with any reason) after a first one changes nothing. -/
theorem disconnect_idempotent (c : ClientConn) (r r' : String) :
    (c.state = .DISCONNECTED → disconnect r c = c) ∧
    disconnect r' (disconnect r c) = disconnect r c := by
  constructor
  · intro hst
    simp [disconnect, hst]
  · have hend : (disconnect r c).state = .DISCONNECTED := by
      by_cases hst : c.state = .DISCONNECTED
      · simp [disconnect, hst]
      · simp only [disconnect, if_neg hst]
    generalize disconnect r c = d at hend ⊢
    simp [disconnect, hend]

/-- Witness for `disconnect_idempotent`: a concrete already-disconnected
client is returned unchanged. -/
theorem disconnect_idempotent_witness :
    disconnect "a" ⟨.DISCONNECTED, -1, "gone"⟩ =
      (⟨.DISCONNECTED, -1, "gone"⟩ : ClientConn) :=
  (disconnect_idempotent ⟨.DISCONNECTED, -1, "gone"⟩ "a" "b").1 rfl

end Kairos
